import Mathlib

/-!
Shallow embedding of the agentman SSH gateway (Rust sources under
`src/gateway/src/`) and proofs about its specification claims.

Conventions:
- Rust `&str` / `String` values that are inspected character by character are
  modelled as `List Char`; values only compared as a whole are `String`.
- All inputs of interest are ASCII; theorems that depend on character
  classification carry an explicit ASCII hypothesis so that Lean's ASCII
  `Char.isAlphanum` agrees with Rust's `char::is_alphanumeric` on every
  covered input.
- Fallible Rust functions returning `anyhow::Result` are modelled with
  `Except String`; error message texts are reproduced where a claim
  mentions them.
-/

namespace Agentman

/-! ## Character and string helpers (Rust std semantics, ASCII fragment) -/

/-- Rust `char::is_whitespace` restricted to the ASCII whitespace characters. -/
def isRustWhitespace (c : Char) : Bool :=
  c = ' ' || c = '\t' || c = '\n' || c = '\r' ||
    c = Char.ofNat 11 || c = Char.ofNat 12

/-- Rust `str::trim` (ASCII fragment): strip leading and trailing whitespace. -/
def rustTrim (cs : List Char) : List Char :=
  ((cs.dropWhile isRustWhitespace).reverse.dropWhile isRustWhitespace).reverse

/-- Rust `char::to_lowercase` on ASCII characters (identity elsewhere in the
ASCII range we care about). -/
def toLowerAscii (c : Char) : Char :=
  if 'A' ≤ c ∧ c ≤ 'Z' then Char.ofNat (c.toNat + 32) else c

/-- Rust `str::trim_end_matches(c)`: remove every trailing occurrence of `c`. -/
def trimEndMatches (cs : List Char) (c : Char) : List Char :=
  (cs.reverse.dropWhile (· = c)).reverse

/-- Accumulate a decimal digit list into a natural number. -/
def digitsVal (ds : List Char) : Nat :=
  ds.foldl (fun a c => a * 10 + (c.toNat - 48)) 0

/-- Strip one optional leading sign character. -/
def splitSign (cs : List Char) : Bool × List Char :=
  match cs with
  | c :: rest =>
    if c = '-' then (true, rest)
    else if c = '+' then (false, rest)
    else (false, cs)
  | [] => (false, [])

/-- Rust `i64::from_str`: optional sign, one or more ASCII digits, value must
fit in the `i64` range. -/
def parseI64 (cs : List Char) : Option Int :=
  let sp := splitSign cs
  let ds := sp.2
  if ds.isEmpty then none
  else if ¬ ds.all Char.isDigit then none
  else
    let n : Int := if sp.1 then -(digitsVal ds : Int) else (digitsVal ds : Int)
    if -(2 ^ 63) ≤ n ∧ n < 2 ^ 63 then some n else none

/-- Two's-complement wrap of an integer into the `i64` range (Rust release
semantics for a possibly overflowing `i64` multiplication). -/
def wrap64 (x : Int) : Int :=
  (x + 2 ^ 63) % 2 ^ 64 - 2 ^ 63

/-- Rust `str::split_whitespace` (ASCII fragment): whitespace-separated
non-empty tokens, in order. -/
def splitWsAux : List Char → List Char → List (List Char)
  | [], acc => if acc.isEmpty then [] else [acc.reverse]
  | c :: cs, acc =>
    if isRustWhitespace c then
      if acc.isEmpty then splitWsAux cs [] else acc.reverse :: splitWsAux cs []
    else
      splitWsAux cs (c :: acc)

/-- Tokenizer entry point, producing tokens as `String`s. -/
def splitWhitespace (cs : List Char) : List String :=
  (splitWsAux cs []).map List.asString

/-- Containment of two consecutive hyphens, Rust `str::contains("--")`. -/
def containsDoubleHyphen : List Char → Bool
  | [] => false
  | [_] => false
  | a :: b :: rest => (a = '-' && b = '-') || containsDoubleHyphen (b :: rest)

/-! ## `github.rs`: username parsing and validation -/

/-- Rust `parse_ssh_username` (src/gateway/src/github.rs:190-198): split at the
first `+` into `(project, Some(identity))`, or return the whole string as the
project when no `+` occurs. -/
def parse_ssh_username (username : List Char) : List Char × Option (List Char) :=
  match username.findIdx? (· = '+') with
  | some pos => (username.take pos, some (username.drop (pos + 1)))
  | none => (username, none)

/-- Rust `validate_project_name` (src/gateway/src/github.rs:201-226). The
checks run in source order: empty, length over 64 bytes, per-character
vocabulary, then leading `.` or `-`. -/
def validate_project_name (name : List Char) : Except String Unit :=
  if name.isEmpty then
    .error "Project name cannot be empty"
  else if name.length > 64 then
    .error "Project name too long (max 64 chars)"
  else if ¬ name.all (fun c => c.isAlphanum || c = '-' || c = '_') then
    .error "Invalid character in project name (only alphanumeric, dash, underscore allowed)"
  else if name.head? = some '.' ∨ name.head? = some '-' then
    .error "Project name cannot start with . or -"
  else
    .ok ()

/-- Rust `validate_github_username` (src/gateway/src/github.rs:229-257):
empty, length over 39 bytes, per-character vocabulary, leading/trailing
hyphen, consecutive hyphens. -/
def validate_github_username (name : List Char) : Except String Unit :=
  if name.isEmpty then
    .error "GitHub username cannot be empty"
  else if name.length > 39 then
    .error "GitHub username too long (max 39 chars)"
  else if ¬ name.all (fun c => c.isAlphanum || c = '-') then
    .error "Invalid character in GitHub username"
  else if name.head? = some '-' ∨ name.getLast? = some '-' then
    .error "GitHub username cannot start or end with -"
  else if containsDoubleHyphen name then
    .error "GitHub username cannot contain consecutive hyphens"
  else
    .ok ()

/-! ## `docker.rs`: memory limit parsing -/

/-- Rust `parse_memory_limit` (src/gateway/src/docker.rs:758-775): trim,
lowercase, strip a trailing `g`/`m`/`k` multiplier, parse the rest as `i64`
and multiply (wrapping on overflow, Rust release semantics). -/
def parse_memory_limit (s : List Char) : Except String Int :=
  let t := (rustTrim s).map toLowerAscii
  let (num, mult) : List Char × Int :=
    if t.getLast? = some 'g' then (trimEndMatches t 'g', 1024 * 1024 * 1024)
    else if t.getLast? = some 'm' then (trimEndMatches t 'm', 1024 * 1024)
    else if t.getLast? = some 'k' then (trimEndMatches t 'k', 1024)
    else (t, 1)
  match parseI64 num with
  | some n => .ok (wrap64 (n * mult))
  | none => .error ("Invalid memory limit: " ++ t.asString)

/-! ## `ssh.rs`: forwarding destination and bind-address policy -/

/-- Rust `is_localhost` (src/gateway/src/ssh.rs:1117-1123). -/
def is_localhost (host : String) : Bool :=
  host = "localhost" || host = "127.0.0.1" || host = "::1" ||
    host = "[::1]" || host = "0.0.0.0"

/-- Rust `ConnectionHandler::channel_open_direct_tcpip` destination policy
(src/gateway/src/ssh.rs:746-811): `none` means the channel open is refused,
`some h` is the in-container destination host passed to `socat`. -/
def direct_tcpip_dest (allow_local allow_nonlocal_destinations : Bool)
    (host_to_connect : String) : Option String :=
  if ¬ allow_local then none
  else if is_localhost host_to_connect then some "127.0.0.1"
  else if allow_nonlocal_destinations then some host_to_connect
  else none

/-- Rust `ConnectionHandler::tcpip_forward` bind-address selection
(src/gateway/src/ssh.rs:820-839): `none` means the request is refused by
`allow_remote = false`, otherwise the chosen bind address. -/
def tcpip_forward_bind_addr (allow_remote allow_gateway_ports : Bool)
    (address : String) : Option String :=
  if ¬ allow_remote then none
  else some (
    if address = "" || address = "0.0.0.0" || address = "*" then
      if allow_gateway_ports then "0.0.0.0" else "127.0.0.1"
    else if is_localhost address then "127.0.0.1"
    else if allow_gateway_ports then address
    else "127.0.0.1")

/-- Bind address as worded by the spec (for the refinement claim C6):
wildcard/empty → `0.0.0.0` when gateway ports are allowed else loopback; a
loopback literal → `127.0.0.1`; any other literal → itself when gateway ports
are allowed else `127.0.0.1`. -/
def bind_addr_of_spec (allow_gateway_ports : Bool) (address : String) : String :=
  if address ∈ (["", "0.0.0.0", "*"] : List String) then
    if allow_gateway_ports then "0.0.0.0" else "127.0.0.1"
  else if address ∈ (["localhost", "127.0.0.1", "::1", "[::1]"] : List String) then
    "127.0.0.1"
  else if allow_gateway_ports then address
  else "127.0.0.1"

/-! ## Control-command grammar

Two parsers exist in the repository.  `ssh.rs` declares its own local
`GatewayControlCommand` and `parse_gateway_control_command` (lines 1141-1191)
knowing only `help` and `destroy`; `gateway_control.rs` declares a richer
version (lines 17-152) with `list`/`stop`/`pause`/`stats`/`exec`.  `main.rs`
declares the modules `config`, `docker`, `github`, `ssh`, `state` only, so the
`gateway_control` module is not compiled into the binary and `ssh.rs` resolves
its own local parser. -/

namespace Ssh

/-- The `ssh.rs`-local control command enumeration (src/gateway/src/ssh.rs:1141-1150). -/
inductive GatewayControlCommand where
  | help
  | destroy (yes keep_workspace dry_run force : Bool)
  deriving DecidableEq, Repr

/-- Flag loop of the `destroy` arm (src/gateway/src/ssh.rs:1168-1180). -/
def parseDestroyArgs : List String → Bool → Bool → Bool → Bool →
    Option GatewayControlCommand
  | [], y, k, d, f => some (.destroy y k d f)
  | a :: rest, y, k, d, f =>
    if a = "--yes" ∨ a = "-y" then parseDestroyArgs rest true k d f
    else if a = "--keep-workspace" then parseDestroyArgs rest y true d f
    else if a = "--dry-run" then parseDestroyArgs rest y k true f
    else if a = "--force" then parseDestroyArgs rest y k d true
    else if a = "--help" ∨ a = "-h" then some .help
    else some .help

/-- Rust `parse_gateway_control_command` as found in `ssh.rs` (lines
1152-1191): this is the parser the live binary dispatches exec payloads
through. -/
def parse_gateway_control_command (cmd : List Char) : Option GatewayControlCommand :=
  match splitWhitespace cmd with
  | [] => none
  | first :: rest =>
    if first ≠ "agentman" then none
    else
      let sub := rest.headD "help"
      if sub = "help" ∨ sub = "--help" ∨ sub = "-h" then some .help
      else if sub = "destroy" then
        parseDestroyArgs rest.tail false false false false
      else some .help

/-- Rust `gateway_control_help_text` in `ssh.rs` (lines 1193-1207). -/
def gateway_control_help_text : String :=
  "agentman gateway control commands\n\nUsage:\n  agentman destroy [--yes] [--keep-workspace] [--dry-run] [--force]\n\nNotes:\n  - Without --yes, destroy refuses to delete your persistent workspace directory.\n  - --keep-workspace stops/removes container(s) but keeps your files on disk.\n  - --dry-run prints what would be deleted.\n"

end Ssh

namespace GatewayControl

/-- The richer enumeration of `gateway_control.rs` (lines 17-30), which the
binary never compiles. -/
inductive GatewayControlCommand where
  | help
  | destroy (yes keep_workspace dry_run force : Bool)
  | execList
  | execStop
  | execPause
  | execStats (current watch : Bool)
  deriving DecidableEq, Repr

/-- Flag loop of the `destroy` arm (src/gateway/src/gateway_control.rs:129-148). -/
def parseDestroyArgs : List String → Bool → Bool → Bool → Bool →
    Option GatewayControlCommand
  | [], y, k, d, f => some (.destroy y k d f)
  | a :: rest, y, k, d, f =>
    if a = "--yes" ∨ a = "-y" then parseDestroyArgs rest true k d f
    else if a = "--keep-workspace" then parseDestroyArgs rest y true d f
    else if a = "--dry-run" then parseDestroyArgs rest y k true f
    else if a = "--force" then parseDestroyArgs rest y k d true
    else if a = "--help" ∨ a = "-h" then some .help
    else some .help

/-- Flag loop of the `stats` arm (src/gateway/src/gateway_control.rs:70-80),
including the `--curennt` typo alias the source accepts. -/
def parseStatsArgs : List String → Bool → Bool → Option GatewayControlCommand
  | [], c, w => some (.execStats c w)
  | a :: rest, c, w =>
    if a = "--current" ∨ a = "--curennt" then parseStatsArgs rest true w
    else if a = "--watch" ∨ a = "-w" then parseStatsArgs rest c true
    else if a = "--help" ∨ a = "-h" then some .help
    else some .help

/-- Single-token subcommands shared by the top level and the `exec` alias
(src/gateway/src/gateway_control.rs:48-121). -/
def parseSimpleSub (sub : String) (rest : List String) :
    Option GatewayControlCommand :=
  if sub = "help" ∨ sub = "--help" ∨ sub = "-h" then some .help
  else if sub = "list" then
    if ¬ rest.isEmpty then some .help else some .execList
  else if sub = "stop" then
    if ¬ rest.isEmpty then some .help else some .execStop
  else if sub = "pause" then
    if ¬ rest.isEmpty then some .help else some .execPause
  else if sub = "stats" then parseStatsArgs rest false false
  else none

/-- Rust `parse_gateway_control_command` as found in `gateway_control.rs`
(lines 38-152). -/
def parse_gateway_control_command (cmd : List Char) : Option GatewayControlCommand :=
  match splitWhitespace cmd with
  | [] => none
  | first :: rest =>
    if first ≠ "agentman" then none
    else
      let sub := rest.headD "help"
      match parseSimpleSub sub rest.tail with
      | some c => some c
      | none =>
        if sub = "exec" then
          let action := rest.tail.headD "help"
          match parseSimpleSub action rest.tail.tail with
          | some c => some c
          | none => some .help
        else if sub = "destroy" then
          parseDestroyArgs rest.tail false false false false
        else some .help

end GatewayControl

/-- Destination host as worded by the spec (for the refinement claim C7):
refuse when local forwarding is off; rewrite a member of the literal loopback
set to `127.0.0.1`; refuse any other host unless non-local destinations are
allowed. -/
def direct_tcpip_dest_of_spec (allow_local allow_nonlocal_destinations : Bool)
    (host : String) : Option String :=
  if allow_local = false then none
  else if host ∈ (["localhost", "127.0.0.1", "::1", "[::1]", "0.0.0.0"] : List String) then
    some "127.0.0.1"
  else if allow_nonlocal_destinations = false then none
  else some host

/-! ## Container-engine world model

Pure model of the container engine, the host filesystem directories and the
persisted gateway state that `docker.rs` and `state.rs` manipulate.  Engine
requests are recorded in an explicit call trace so that claims about "zero
create/start calls" or "no stop/remove call" are statements about the trace. -/

/-- One engine-side container.  Of the Docker labels only the three the
gateway reads (`agentman.managed`, `agentman.github_user`,
`agentman.project`) are modelled. -/
structure EngineContainer where
  id : String
  name : String
  running : Bool
  paused : Bool
  managed : Bool
  labelUser : Option String
  labelProject : Option String
  deriving DecidableEq, Repr

/-- Rust `WorkspaceInfo` (src/gateway/src/state.rs:42-60); the `created_at`
wall-clock timestamp is omitted. -/
structure WorkspaceInfo where
  github_user : String
  project : String
  container_name : String
  container_id : Option String
  host_workspace_path : String
  deriving DecidableEq, Repr

/-- World state: engine containers, persisted workspace map (assoc list keyed
by `"user/project"` as in `state.rs`), existing host directories, a fresh-id
counter standing for engine id generation, the current `%Y%m%d` date string,
and the configured workspace root. -/
structure DockerWorld where
  containers : List EngineContainer
  workspaces : List (String × WorkspaceInfo)
  hostDirs : List String
  freshCounter : Nat
  today : String
  workspaceRoot : String
  deriving DecidableEq, Repr

/-- Engine / host side effects, recorded in traces. -/
inductive EngineCall where
  | listContainers
  | inspect (target : String)
  | create (name : String)
  | start (target : String)
  | unpause (target : String)
  | stop (target : String)
  | remove (target : String)
  | removeDir (path : String)
  deriving DecidableEq, Repr

/-- Rust `WorkspaceInfo::key` (src/gateway/src/state.rs:64-66). -/
def wsKey (github_user project : String) : String :=
  github_user ++ "/" ++ project

/-- Rust `GatewayConfig::workspace_path` (src/gateway/src/config.rs:185-187). -/
def DockerWorld.workspacePath (w : DockerWorld) (github_user project : String) : String :=
  w.workspaceRoot ++ "/" ++ github_user ++ "/" ++ project

/-- Rust `StateManager::get_workspace` (src/gateway/src/state.rs:129-133). -/
def DockerWorld.getWorkspace (w : DockerWorld) (u p : String) : Option WorkspaceInfo :=
  (w.workspaces.find? (fun e => e.1 = wsKey u p)).map (·.2)

/-- The engine resolves a container reference by id or by name. -/
def DockerWorld.findContainer (w : DockerWorld) (target : String) : Option EngineContainer :=
  w.containers.find? (fun c => c.id = target || c.name = target)

/-- Apply an update to every container matching the reference. -/
def DockerWorld.updateContainer (w : DockerWorld) (target : String)
    (f : EngineContainer → EngineContainer) : DockerWorld :=
  { w with containers :=
      w.containers.map (fun c => if c.id = target || c.name = target then f c else c) }

/-- Engine `remove_container`. -/
def DockerWorld.removeContainer (w : DockerWorld) (target : String) : DockerWorld :=
  { w with containers := w.containers.filter (fun c => ¬ (c.id = target ∨ c.name = target)) }

/-- Rust `ensure_workspace_writable` (src/gateway/src/docker.rs:86-169):
modelled as creating the host directory if missing (the chown/chmod dance has
no observable made by any claim). -/
def DockerWorld.ensureDir (w : DockerWorld) (path : String) : DockerWorld :=
  if path ∈ w.hostDirs then w else { w with hostDirs := path :: w.hostDirs }

/-- Rust `ContainerManager::container_exists` (src/gateway/src/docker.rs:433-445). -/
def DockerWorld.container_exists (w : DockerWorld) (id : String) : Bool :=
  (w.findContainer id).isSome

/-- Rust `ContainerManager::ensure_running` (src/gateway/src/docker.rs:448-485):
one inspect; unpause if paused; start if the inspected snapshot said not
running. -/
def DockerWorld.ensure_running (w : DockerWorld) (id : String) :
    Except String (DockerWorld × List EngineCall) :=
  match w.findContainer id with
  | none => .error "Failed to inspect container"
  | some c =>
    let s1 := if c.paused then
        (w.updateContainer id (fun c => { c with paused := false }), [EngineCall.unpause id])
      else (w, [])
    let s2 := if ¬ c.running then
        (s1.1.updateContainer id (fun c => { c with running := true }), [EngineCall.start id])
      else (s1.1, [])
    .ok (s2.1, EngineCall.inspect id :: (s1.2 ++ s2.2))

/-- Name-collision check done through `list_containers` with a `^name$`
filter (src/gateway/src/docker.rs:398-430). -/
def DockerWorld.nameTaken (w : DockerWorld) (name : String) : Bool :=
  w.containers.any (fun c => c.name = name)

/-- Rust `ContainerManager::ensure_unique_name` loop: try `base`, then
`base-1` … `base-100`, one `list_containers` call per probe. -/
def uniqueNameLoop (w : DockerWorld) (base name : String) (suffix : Nat) :
    Nat → Except String (String × List EngineCall)
  | 0 => .error "Could not find unique container name after 100 attempts"
  | fuel + 1 =>
    if ¬ w.nameTaken name then .ok (name, [EngineCall.listContainers])
    else if suffix + 1 > 100 then
      .error "Could not find unique container name after 100 attempts"
    else
      match uniqueNameLoop w base (base ++ "-" ++ toString (suffix + 1)) (suffix + 1) fuel with
      | .ok (n, calls) => .ok (n, EngineCall.listContainers :: calls)
      | .error e => .error e

/-- Rust `ContainerManager::create_container` (src/gateway/src/docker.rs:238-318):
pick a unique name, ensure the workspace dir, create and start the container,
persist the workspace record.  Fresh engine ids come from the counter; the
new container is placed at the front so the engine resolves its id to it. -/
def DockerWorld.create_container (w : DockerWorld) (u p : String) :
    Except String (DockerWorld × String × List EngineCall) :=
  let base := p ++ "-" ++ u ++ "-" ++ w.today
  match uniqueNameLoop w base base 0 101 with
  | .error e => .error e
  | .ok (name, calls0) =>
    let path := w.workspacePath u p
    let w1 := w.ensureDir path
    let id := "engine-id-" ++ toString w1.freshCounter
    let c : EngineContainer :=
      { id := id, name := name, running := false, paused := false,
        managed := true, labelUser := some u, labelProject := some p }
    let w2 : DockerWorld :=
      { w1 with containers := c :: w1.containers, freshCounter := w1.freshCounter + 1 }
    let w3 := w2.updateContainer id (fun c => { c with running := true })
    let ws : WorkspaceInfo :=
      { github_user := u, project := p, container_name := name,
        container_id := some id, host_workspace_path := path }
    let w4 : DockerWorld := { w3 with workspaces := (wsKey u p, ws) :: w3.workspaces }
    .ok (w4, id, calls0 ++ [EngineCall.create name, EngineCall.start id])

/-- Rust `ContainerManager::get_or_create_container` (src/gateway/src/docker.rs:207-235). -/
def DockerWorld.get_or_create_container (w : DockerWorld) (u p : String) :
    Except String (DockerWorld × String × List EngineCall) :=
  let w0 := w.ensureDir (w.workspacePath u p)
  match w0.getWorkspace u p with
  | some ws =>
    match ws.container_id with
    | some id =>
      if w0.container_exists id then
        match w0.ensure_running id with
        | .ok (w1, calls) => .ok (w1, id, EngineCall.inspect id :: calls)
        | .error e => .error e
      else
        match w0.create_container u p with
        | .ok (w1, cid, calls) => .ok (w1, cid, EngineCall.inspect id :: calls)
        | .error e => .error e
    | none => w0.create_container u p
  | none => w0.create_container u p

/-- Postcondition of a successful `get_or_create_container`: the state file
maps the workspace to this container id, and the engine resolves that id to
a running, unpaused container. -/
def DockerWorld.readyFor (w : DockerWorld) (u p id : String) : Prop :=
  (∃ ws, w.getWorkspace u p = some ws ∧ ws.container_id = some id) ∧
  (∃ c, w.findContainer id = some c ∧ c.running = true ∧ c.paused = false)

/-! ## Destroy and the exec-request control branch -/

/-- Rust `DestroyOptions` (src/gateway/src/docker.rs:28-36). -/
structure DestroyOptions where
  keep_workspace : Bool
  force : Bool
  dry_run : Bool
  deriving DecidableEq, Repr

/-- Rust `DestroyResult` (src/gateway/src/docker.rs:39-46). -/
structure DestroyResult where
  removed_containers : List String
  workspace_path : String
  workspace_deleted : Bool
  state_entry_deleted : Bool
  warnings : List String
  deriving DecidableEq, Repr

/-- Rust `DestroyResult::format_human` (src/gateway/src/docker.rs:48-83). -/
def DestroyResult.format_human (r : DestroyResult) : String :=
  "agentman: destroy summary\n" ++
  "- removed containers: " ++
    (if r.removed_containers.isEmpty then "(none)"
     else String.intercalate ", " r.removed_containers) ++ "\n" ++
  "- workspace path: " ++ r.workspace_path ++ "\n" ++
  "- workspace deleted: " ++ (if r.workspace_deleted then "yes" else "no") ++ "\n" ++
  "- state entry deleted: " ++ (if r.state_entry_deleted then "yes" else "no") ++ "\n" ++
  (if r.warnings.isEmpty then ""
   else "- warnings:\n" ++ String.join (r.warnings.map (fun w => "  - " ++ w ++ "\n")))

/-- Insertion into a sorted list of strings (for `Vec::sort`). -/
def insertSorted (a : String) : List String → List String
  | [] => [a]
  | b :: rest => if a ≤ b then a :: b :: rest else b :: insertSorted a rest

/-- Rust `Vec::sort` on strings. -/
def sortStrings (l : List String) : List String :=
  l.foldr insertSorted []

/-- Rust `Vec::dedup`: drop consecutive duplicates. -/
def dedupAdjacent : List String → List String
  | [] => []
  | [a] => [a]
  | a :: b :: rest =>
    if a = b then dedupAdjacent (b :: rest) else a :: dedupAdjacent (b :: rest)

/-- Rust `ContainerManager::list_labeled_workspace_containers`
(src/gateway/src/docker.rs:720-754). -/
def DockerWorld.labeledWorkspaceContainers (w : DockerWorld) (u p : String) : List String :=
  (w.containers.filter (fun c =>
    c.managed && c.labelUser = some u && c.labelProject = some p)).map (·.id)

/-- Per-target stop/remove step of `destroy_workspace`
(src/gateway/src/docker.rs:632-679).  Returns the updated world, the names
pushed onto `removed_containers`, and the engine calls made. -/
def destroyTargetStep (opts : DestroyOptions) (w : DockerWorld) (target : String) :
    DockerWorld × List String × List EngineCall :=
  if opts.dry_run then (w, [target ++ " (dry-run)"], [])
  else
    let stopPart :=
      if ¬ opts.force then
        ((w.findContainer target).elim w
          (fun _ => w.updateContainer target (fun c => { c with running := false })),
         [EngineCall.stop target])
      else (w, [])
    let w1 := stopPart.1
    let removedNow := (w1.findContainer target).isSome
    let w2 := w1.removeContainer target
    (w2, if removedNow then [target] else [], stopPart.2 ++ [EngineCall.remove target])

/-- Fold `destroyTargetStep` over the target list. -/
def destroyTargets (opts : DestroyOptions) :
    DockerWorld → List String → DockerWorld × List String × List EngineCall
  | w, [] => (w, [], [])
  | w, t :: ts =>
    let s := destroyTargetStep opts w t
    let rest := destroyTargets opts s.1 ts
    (rest.1, s.2.1 ++ rest.2.1, s.2.2 ++ rest.2.2)

/-- Rust `ContainerManager::destroy_workspace` (src/gateway/src/docker.rs:597-718).
The pure model cannot fail (engine errors only produce warnings in the
source; the filesystem delete is assumed to succeed). -/
def DockerWorld.destroy_workspace (w : DockerWorld) (u p : String)
    (opts : DestroyOptions) : DockerWorld × DestroyResult × List EngineCall :=
  let path := w.workspacePath u p
  let stateTargets : List String :=
    match w.getWorkspace u p with
    | some ws => (ws.container_id.elim [] (fun id => [id])) ++ [ws.container_name]
    | none => []
  let targets := dedupAdjacent (sortStrings (stateTargets ++ w.labeledWorkspaceContainers u p))
  let afterC := destroyTargets opts w targets
  let w1 := afterC.1
  let dirState : DockerWorld × Bool × List EngineCall :=
    if ¬ opts.keep_workspace then
      if opts.dry_run then (w1, decide (path ∈ w1.hostDirs), [])
      else if path ∈ w1.hostDirs then
        ({ w1 with hostDirs := w1.hostDirs.filter (· ≠ path) }, true, [EngineCall.removeDir path])
      else (w1, false, [])
    else (w1, false, [])
  let w2 := dirState.1
  let stateResult : DockerWorld × Bool :=
    if opts.dry_run then (w2, false)
    else
      ({ w2 with workspaces := w2.workspaces.filter (fun e => e.1 ≠ wsKey u p) },
       (w2.getWorkspace u p).isSome)
  (stateResult.1,
   { removed_containers := afterC.2.1, workspace_path := path,
     workspace_deleted := dirState.2.1, state_entry_deleted := stateResult.2,
     warnings := [] },
   EngineCall.listContainers :: (afterC.2.2 ++ dirState.2.2))

/-- Rust destroy refusal text (src/gateway/src/ssh.rs:558-565). -/
def destroy_refusal_text : String :=
  "Refusing to destroy without confirmation.\nThis will stop/remove your container(s) and DELETE your persistent workspace.\n\nRun one of:\n  agentman destroy --yes\n  agentman destroy --keep-workspace\n  agentman destroy --dry-run\n"

/-- Control branch of `ConnectionHandler::exec_request`
(src/gateway/src/ssh.rs:544-600), for an authenticated session with identity
`u` and project `p`: `none` means the payload is not a control command and
the gateway proceeds to run it inside the container.  The result carries the
updated world, the reported exit status, the output written to the channel
and the engine call trace. -/
def exec_request_control (w : DockerWorld) (u p : String) (cmd : List Char) :
    Option (DockerWorld × Nat × String × List EngineCall) :=
  match Ssh.parse_gateway_control_command (rustTrim cmd) with
  | none => none
  | some .help => some (w, 0, Ssh.gateway_control_help_text, [])
  | some (.destroy y k d f) =>
    if ¬ d ∧ ¬ k ∧ ¬ y then
      some (w, 2, destroy_refusal_text, [])
    else
      let r := w.destroy_workspace u p { keep_workspace := k, force := f, dry_run := d }
      some (r.1, 0, r.2.1.format_human, r.2.2)

/-! ## Exec session stream relay (`ConnectionHandler::start_exec_session`) -/

/-- Bollard `LogOutput` frames as consumed by the stdout pump
(src/gateway/src/ssh.rs:1016-1068).  Payload bytes are kept abstract as
strings. -/
inductive LogOutput where
  | stdOut (message : String)
  | stdErr (message : String)
  | stdIn (message : String)
  | console (message : String)
  deriving DecidableEq, Repr

/-- Rust `ChannelStreamKind` (src/gateway/src/ssh.rs:90-96). -/
inductive ChannelStreamKind where
  | session
  | tcpForward
  deriving DecidableEq, Repr

/-- SSH channel messages the client observes from the gateway. -/
inductive SshMsg where
  | data (bytes : String)
  | extendedData (code : Nat) (bytes : String)
  | exitStatus (status : Nat)
  | eof
  | close
  deriving DecidableEq, Repr

/-- Frame-forwarding loop of the stdout task: stdout/stdin/console frames
become `data`, stderr frames become extended-data 1 on Session channels and
are dropped on TcpForward channels, and a stream error breaks the loop. -/
def pumpFrames (kind : ChannelStreamKind) : List (Except String LogOutput) → List SshMsg
  | [] => []
  | .error _ :: _ => []
  | .ok f :: rest =>
    match f with
    | .stdErr m =>
      match kind with
      | .session => SshMsg.extendedData 1 m :: pumpFrames kind rest
      | .tcpForward => pumpFrames kind rest
    | .stdOut m => SshMsg.data m :: pumpFrames kind rest
    | .stdIn m => SshMsg.data m :: pumpFrames kind rest
    | .console m => SshMsg.data m :: pumpFrames kind rest

/-- One `inspect_exec` response: `running` and `exit_code` as the engine
reports them. -/
structure ExecInspect where
  running : Option Bool
  exit_code : Option Int
  deriving DecidableEq, Repr

/-- Exit-status poll loop (src/gateway/src/ssh.rs:1074-1091): up to 80
inspects (the `n`-th call of the run is `inspect n`), sleeping between
polls that still report running; negative exit codes and a poll timeout or
inspect error leave 255.  A non-negative code goes through Rust's
`code as u32` (ssh.rs:1083), a wrapping i64→u32 cast, modelled as reduction
modulo `2 ^ 32`. -/
def pollExitLoop (inspect : Nat → Except Unit ExecInspect) : Nat → Nat → Nat
  | _, 0 => 255
  | i, fuel + 1 =>
    match inspect i with
    | .error _ => 255
    | .ok info =>
      if info.running.getD false then pollExitLoop inspect (i + 1) fuel
      else
        let code := info.exit_code.getD 0
        if code < 0 then 255 else code.toNat % 2 ^ 32

/-- Exit status the gateway reports for a Session-kind exec. -/
def exec_exit_status (inspect : Nat → Except Unit ExecInspect) : Nat :=
  pollExitLoop inspect 0 80

/-- Messages the client observes from one exec's stdout task, in order
(src/gateway/src/ssh.rs:1016-1099): the pumped frames, then — for Session
kind only — exactly one `exit-status`, then `eof`, then `close`. -/
def start_exec_session_msgs (kind : ChannelStreamKind)
    (frames : List (Except String LogOutput))
    (inspect : Nat → Except Unit ExecInspect) : List SshMsg :=
  pumpFrames kind frames ++
    (if kind = .session then [SshMsg.exitStatus (exec_exit_status inspect)] else []) ++
    [SshMsg.eof, SshMsg.close]

/-- Concatenation of the bytes a client reads from the channel's stdout
stream (`data` messages, in order). -/
def msgsStdout : List SshMsg → String
  | [] => ""
  | .data b :: rest => b ++ msgsStdout rest
  | _ :: rest => msgsStdout rest

/-- Concatenation of the stdout-side bytes the container process wrote
(stdout, stdin-echo and console frames, in order). -/
def framesStdout : List (Except String LogOutput) → String
  | [] => ""
  | .ok (.stdOut m) :: rest => m ++ framesStdout rest
  | .ok (.stdIn m) :: rest => m ++ framesStdout rest
  | .ok (.console m) :: rest => m ++ framesStdout rest
  | _ :: rest => framesStdout rest

/-! ## Authentication state machine (`ConnectionHandler::auth_publickey_offered`) -/

/-- Rust `KeyCacheEntry` (src/gateway/src/state.rs:29-38); the `verified_at`
wall-clock timestamp is omitted. -/
structure KeyCacheEntry where
  github_username : List Char
  key_type : String
  deriving DecidableEq, Repr

/-- The fingerprint → identity map of the state file. -/
def KeyStore := List (String × KeyCacheEntry)

/-- Rust `StateManager::get_github_user` (src/gateway/src/state.rs:114-117). -/
def KeyStore.get_github_user (store : KeyStore) (fp : String) : Option KeyCacheEntry :=
  (store.find? (fun e => e.1 = fp)).map (·.2)

/-- Rust `StateManager::cache_key`: HashMap insert, modelled as a prepend
(lookups see the newest entry first). -/
def KeyStore.cache_key (store : KeyStore) (fp : String) (e : KeyCacheEntry) : KeyStore :=
  (fp, e) :: store

/-- A client public key, abstracted to its fingerprint, its OpenSSH text and
its algorithm name. -/
structure PublicKey where
  fingerprint : String
  key_type : String
  deriving DecidableEq, Repr

/-- The identity provider: does this identity's published key list contain
the presented key?  One invocation corresponds to one `verify_key` call and
hence one HTTPS fetch. -/
def GitHubProvider := List Char → PublicKey → Bool

/-- The auth-relevant fields of Rust `ConnectionHandler` (src/gateway/src/ssh.rs:43-74). -/
structure ConnectionHandler where
  github_user : Option (List Char)
  project : Option (List Char)
  pending_github_user : Option (List Char)
  offered_key_fingerprints : List String
  deriving DecidableEq, Repr

/-- Fresh per-connection handler (src/gateway/src/ssh.rs:112-125). -/
def ConnectionHandler.new : ConnectionHandler :=
  { github_user := none, project := none, pending_github_user := none,
    offered_key_fingerprints := [] }

/-- Auth outcome.  `rejectContinue` stands for a reject that leaves publickey
(and possibly keyboard-interactive) in `proceed_with_methods`, so the client
goes on offering keys; `rejectStop` is a reject with no methods. -/
inductive Auth where
  | accept
  | rejectStop
  | rejectContinue
  deriving DecidableEq, Repr

/-- Which of the four resolution paths produced an accept. -/
inductive AuthPath where
  | cached
  | pendingKbd
  | userHint
  | bootstrap
  deriving DecidableEq, Repr

/-- Result of one `auth_publickey_offered` callback. -/
structure AuthStepResult where
  handler : ConnectionHandler
  store : KeyStore
  auth : Auth
  fetches : Nat
  path : Option AuthPath

/-- Rust `ConnectionHandler::cache_all_offered_keys`
(src/gateway/src/ssh.rs:948-967): bind every offered fingerprint that has no
binding yet to the verified identity. -/
def cache_all_offered_keys (store : KeyStore) (offered : List String)
    (gu : List Char) (key_type : String) : KeyStore :=
  offered.foldl
    (fun st fp =>
      if (st.get_github_user fp).isSome then st
      else st.cache_key fp { github_username := gu, key_type := key_type })
    store

/-- Bootstrap-user loop (src/gateway/src/ssh.rs:266-285): try each configured
identity in order, one fetch per try; on the first match cache all offered
keys.  Returns the matched identity, the store, and the fetch count. -/
def bootstrapLoop (provider : GitHubProvider) (key : PublicKey) (store : KeyStore)
    (offered : List String) : List (List Char) → Option (List Char) × KeyStore × Nat
  | [] => (none, store, 0)
  | u :: rest =>
    if provider u key then
      (some u, cache_all_offered_keys store offered u key.key_type, 1)
    else
      let r := bootstrapLoop provider key store offered rest
      (r.1, r.2.1, r.2.2 + 1)

/-- Identity-resolution order of `auth_publickey_offered`
(src/gateway/src/ssh.rs:172-298), on the handler state after the offered
fingerprint has been recorded: (a) cached binding, (b) pending
keyboard-interactive identity, (c) identity hint from the SSH user field,
(d) configured bootstrap identities, (e) reject keeping publickey open. -/
def auth_resolve (provider : GitHubProvider) (bootstrap : List (List Char))
    (h2 : ConnectionHandler) (store : KeyStore) (github_hint : Option (List Char))
    (key : PublicKey) : AuthStepResult :=
  match store.get_github_user key.fingerprint with
  | some entry =>
    ⟨{ h2 with github_user := some entry.github_username }, store, .accept, 0, some .cached⟩
  | none =>
    match h2.pending_github_user with
    | some gu =>
      if provider gu key then
        ⟨{ h2 with github_user := some gu, pending_github_user := none },
          cache_all_offered_keys store h2.offered_key_fingerprints gu key.key_type,
          .accept, 1, some .pendingKbd⟩
      else ⟨h2, store, .rejectContinue, 1, none⟩
    | none =>
      match github_hint with
      | some gu =>
        if ¬ (validate_github_username gu).isOk then
          ⟨h2, store, .rejectStop, 0, none⟩
        else if provider gu key then
          ⟨{ h2 with github_user := some gu },
            cache_all_offered_keys store h2.offered_key_fingerprints gu key.key_type,
            .accept, 1, some .userHint⟩
        else ⟨h2, store, .rejectStop, 1, none⟩
      | none =>
        let r := bootstrapLoop provider key store h2.offered_key_fingerprints bootstrap
        match r.1 with
        | some gu => ⟨{ h2 with github_user := some gu }, r.2.1, .accept, r.2.2, some .bootstrap⟩
        | none => ⟨h2, store, .rejectContinue, r.2.2, none⟩

/-- Rust `ConnectionHandler::auth_publickey_offered`
(src/gateway/src/ssh.rs:142-298), as a pure step on handler and store:
parse and validate the SSH user field, record the offered fingerprint, then
resolve per `auth_resolve`. -/
def auth_publickey_offered (provider : GitHubProvider) (bootstrap : List (List Char))
    (h : ConnectionHandler) (store : KeyStore) (user : List Char) (key : PublicKey) :
    AuthStepResult :=
  let pr := parse_ssh_username user
  if ¬ (validate_project_name pr.1).isOk then
    ⟨h, store, .rejectStop, 0, none⟩
  else
    let h1 := { h with project := some pr.1 }
    let h2 :=
      if key.fingerprint ∈ h1.offered_key_fingerprints then h1
      else { h1 with offered_key_fingerprints :=
              h1.offered_key_fingerprints ++ [key.fingerprint] }
    auth_resolve provider bootstrap h2 store pr.2 key

/-- A whole auth attempt: the client offers its keys one after another until
the server accepts.  Returns the final handler and store, whether the attempt
succeeded, and the total number of identity-provider fetches. -/
def runAuth (provider : GitHubProvider) (bootstrap : List (List Char)) (user : List Char) :
    ConnectionHandler → KeyStore → List PublicKey → ConnectionHandler × KeyStore × Bool × Nat
  | h, store, [] => (h, store, false, 0)
  | h, store, k :: ks =>
    let r := auth_publickey_offered provider bootstrap h store user k
    match r.auth with
    | .accept => (r.handler, r.store, true, r.fetches)
    | _ =>
      let rest := runAuth provider bootstrap user r.handler r.store ks
      (rest.1, rest.2.1, rest.2.2.1, r.fetches + rest.2.2.2)

/-! ## Helper lemmas -/

/-- Closed form of `parse_ssh_username`: split at the first `+` when one
occurs, otherwise return the whole input as the project. -/
theorem parse_ssh_username_eq (us : List Char) :
    parse_ssh_username us =
      if '+' ∈ us then
        (us.takeWhile (· ≠ '+'), some ((us.dropWhile (· ≠ '+')).tail))
      else (us, none) := by
  induction us with
  | nil => rfl
  | cons c rest ih =>
    by_cases hc : c = '+'
    · subst hc
      simp [parse_ssh_username, List.findIdx?_cons, List.takeWhile_cons,
        List.dropWhile_cons]
    · have hfind :
          List.findIdx? (· = '+') (c :: rest) =
            Option.map (· + 1) (List.findIdx? (· = '+') rest) := by
        rw [List.findIdx?_cons]
        simp [hc, List.findIdx?_succ]
      cases hfd : List.findIdx? (· = '+') rest with
      | none =>
        have hmem : '+' ∉ rest := by
          intro hmem
          have := ih
          rw [if_pos hmem] at this
          simp [parse_ssh_username, hfd] at this
        simp [parse_ssh_username, hfind, hfd, hc, hmem, Ne.symm hc]
      | some i =>
        have hmem : '+' ∈ rest := by
          by_contra hmem
          have := ih
          rw [if_neg hmem] at this
          simp [parse_ssh_username, hfd] at this
        have ih2 := ih
        rw [if_pos hmem] at ih2
        simp only [parse_ssh_username, hfd] at ih2
        have h1 : rest.take i = rest.takeWhile (· ≠ '+') := congrArg Prod.fst ih2
        have h2 : rest.drop (i + 1) = (rest.dropWhile (· ≠ '+')).tail := by
          have := congrArg Prod.snd ih2
          simpa using this
        simp only [parse_ssh_username, hfind, hfd, Option.map_some]
        rw [if_pos (by simp [hc, hmem])]
        simp [List.takeWhile_cons, List.dropWhile_cons, hc, Ne.symm hc, h1, h2]

/-- When the marker occurs in the list, `dropWhile` stops exactly on it. -/
theorem dropWhile_mem_head (us : List Char) (h : '+' ∈ us) :
    us.dropWhile (· ≠ '+') = '+' :: (us.dropWhile (· ≠ '+')).tail := by
  induction us with
  | nil => cases h
  | cons c rest ih =>
    by_cases hc : c = '+'
    · subst hc; simp [List.dropWhile_cons]
    · have hmem : '+' ∈ rest := by
        cases List.mem_cons.mp h with
        | inl h0 => exact absurd h0.symm hc
        | inr h0 => exact h0
      simpa [List.dropWhile_cons, hc, Ne.symm hc] using ih hmem

/-! ## Claim C10 -/

/-- C10: `parse_ssh_username` splits at the first `+` only.  For every input
containing a `+`, the project is the prefix before the first `+` (hence
contains no `+`) and the identity is the entire remainder, so that
`project ++ "+" ++ identity` reassembles the input; for every input without a
`+`, the whole string is the project and there is no identity. -/
theorem C10_parse_ssh_username_first_plus :
    (∀ us : List Char, '+' ∈ us →
      parse_ssh_username us =
        (us.takeWhile (· ≠ '+'), some ((us.dropWhile (· ≠ '+')).tail)) ∧
      '+' ∉ us.takeWhile (· ≠ '+') ∧
      us.takeWhile (· ≠ '+') ++ '+' :: (us.dropWhile (· ≠ '+')).tail = us) ∧
    (∀ us : List Char, '+' ∉ us → parse_ssh_username us = (us, none)) := by
  constructor
  · intro us h
    refine ⟨by rw [parse_ssh_username_eq, if_pos h], ?_, ?_⟩
    · intro hplus
      have := List.mem_takeWhile_imp hplus
      simp at this
    · conv_rhs =>
        rw [← List.takeWhile_append_dropWhile (p := (· ≠ '+')) (l := us),
          dropWhile_mem_head us h]
  · intro us h
    rw [parse_ssh_username_eq, if_neg h]

/-- Witness for C10 at concrete inputs: `"demo+my+user"` splits into
`("demo", "my+user")` and `"demo"` has no identity part. -/
theorem C10_witness :
    parse_ssh_username "demo+my+user".data =
      ("demo+my+user".data.takeWhile (· ≠ '+'),
        some (("demo+my+user".data.dropWhile (· ≠ '+')).tail)) ∧
    parse_ssh_username "demo".data = ("demo".data, none) :=
  ⟨(C10_parse_ssh_username_first_plus.1 "demo+my+user".data (by decide)).1,
   C10_parse_ssh_username_first_plus.2 "demo".data (by decide)⟩

/-! ## Claim C5 -/

/-- C5 counterexample: the project-name validator accepts `"a--b"` (which
contains the substring `--`) and `"a-"` (which ends in `-`), although the
claim asserts that both validators reject every input containing `--` or a
trailing `-`. -/
theorem C5_counterexample_project_double_hyphen :
    validate_project_name "a--b".data = .ok () ∧
    containsDoubleHyphen "a--b".data = true ∧
    validate_project_name "a-".data = .ok () ∧
    "a-".data.getLast? = some '-' :=
  ⟨rfl, by decide, rfl, by decide⟩

/-- C5 (amended): on ASCII inputs — where Lean's `Char.isAlphanum` coincides
with Rust's `char::is_alphanumeric` — the project validator accepts exactly
the nonempty strings of at most 64 alphanumeric/`-`/`_` characters that do
not start with `.` or `-` (trailing `-` and `--` are not restricted), and the
identity validator accepts exactly the nonempty strings of at most 39
alphanumeric/`-` characters with no leading or trailing `-` and no `--`.  In
particular both reject `/`, whitespace, a leading `.`, and every character
outside their vocabularies. -/
theorem C5_validator_characterization :
    (∀ name : List Char, (∀ c ∈ name, c.toNat < 128) →
      (validate_project_name name = .ok () ↔
        (1 ≤ name.length ∧ name.length ≤ 64 ∧
         (∀ c ∈ name, c.isAlphanum ∨ c = '-' ∨ c = '_') ∧
         name.head? ≠ some '.' ∧ name.head? ≠ some '-'))) ∧
    (∀ name : List Char, (∀ c ∈ name, c.toNat < 128) →
      (validate_github_username name = .ok () ↔
        (1 ≤ name.length ∧ name.length ≤ 39 ∧
         (∀ c ∈ name, c.isAlphanum ∨ c = '-') ∧
         name.head? ≠ some '-' ∧ name.getLast? ≠ some '-' ∧
         containsDoubleHyphen name = false))) := by
  constructor
  · intro name _
    unfold validate_project_name
    split_ifs with h1 h2 h3 h4
    · simp [List.isEmpty_iff.mp h1]
    · simp only [reduceCtorEq, false_iff]
      intro h
      exact absurd h.2.1 (by omega)
    · simp only [reduceCtorEq, false_iff]
      rintro ⟨-, -, -, hd1, hd2⟩
      rcases h4 with h | h <;> [exact hd1 h; exact hd2 h]
    · simp only [true_iff]
      rw [List.all_eq_true] at h3
      push_neg at h4
      refine ⟨?_, by omega, ?_, h4.1, h4.2⟩
      · have hne : name ≠ [] := fun hn => h1 (by simp [hn])
        have := List.length_pos.mpr hne
        omega
      · intro c hc
        have := h3 c hc
        simp only [Bool.or_eq_true, decide_eq_true_eq] at this
        tauto
    · simp only [reduceCtorEq, false_iff]
      rw [List.all_eq_true] at h3
      push_neg at h3
      obtain ⟨x, hx, hbad⟩ := h3
      rintro ⟨-, -, hall, -, -⟩
      rcases hall x hx with h | h | h <;> simp [h] at hbad
  · intro name _
    unfold validate_github_username
    split_ifs with h1 h2 h3 h4 h5
    · simp [List.isEmpty_iff.mp h1]
    · simp only [reduceCtorEq, false_iff]
      intro h
      exact absurd h.2.1 (by omega)
    · simp only [reduceCtorEq, false_iff]
      rintro ⟨-, -, -, hd1, hd2, -⟩
      rcases h4 with h | h <;> [exact hd1 h; exact hd2 h]
    · simp only [reduceCtorEq, false_iff]
      rintro ⟨-, -, -, -, -, hdh⟩
      rw [hdh] at h5
      exact absurd h5 (by simp)
    · simp only [true_iff]
      rw [List.all_eq_true] at h3
      push_neg at h4
      refine ⟨?_, by omega, ?_, h4.1, h4.2, by simpa using h5⟩
      · have hne : name ≠ [] := fun hn => h1 (by simp [hn])
        have := List.length_pos.mpr hne
        omega
      · intro c hc
        have := h3 c hc
        simp only [Bool.or_eq_true, decide_eq_true_eq] at this
        tauto
    · simp only [reduceCtorEq, false_iff]
      rw [List.all_eq_true] at h3
      push_neg at h3
      obtain ⟨x, hx, hbad⟩ := h3
      rintro ⟨-, -, hall, -, -, -⟩
      rcases hall x hx with h | h <;> simp [h] at hbad

/-! ## Claim C8 helper lemmas -/

/-- Every ASCII digit is one of the ten digit characters. -/
theorem isDigit_mem_digits (c : Char) (h : c.isDigit = true) :
    c ∈ ['0', '1', '2', '3', '4', '5', '6', '7', '8', '9'] := by
  simp only [Char.isDigit, Bool.and_eq_true, decide_eq_true_eq] at h
  have h1 : 48 ≤ c.toNat := h.1
  have h2 : c.toNat ≤ 57 := h.2
  have h3 : c.toNat = 48 ∨ c.toNat = 49 ∨ c.toNat = 50 ∨ c.toNat = 51 ∨ c.toNat = 52 ∨
      c.toNat = 53 ∨ c.toNat = 54 ∨ c.toNat = 55 ∨ c.toNat = 56 ∨ c.toNat = 57 := by omega
  have h4 : c = Char.ofNat c.toNat := (Char.ofNat_toNat c).symm
  rcases h3 with h | h | h | h | h | h | h | h | h | h <;> rw [h4, h] <;> decide

/-- The character facts the memory-limit pipeline needs about digits. -/
theorem digit_facts (c : Char) (h : c.isDigit = true) :
    isRustWhitespace c = false ∧ toLowerAscii c = c ∧
    c ≠ 'g' ∧ c ≠ 'm' ∧ c ≠ 'k' ∧ c ≠ '-' ∧ c ≠ '+' := by
  have := isDigit_mem_digits c h
  fin_cases this <;> refine ⟨by decide, by decide, by decide, by decide, by decide, by decide, by decide⟩

/-- A list whose head does not satisfy the predicate is untouched by
`dropWhile` (only the head can matter). -/
theorem dropWhile_eq_self_of_forall {p : Char → Bool} (l : List Char)
    (h : ∀ c ∈ l, p c = false) : l.dropWhile p = l := by
  cases l with
  | nil => rfl
  | cons a t => simp [List.dropWhile_cons, h a (by simp)]

/-- Trimming is the identity on whitespace-free inputs. -/
theorem rustTrim_eq_self (l : List Char)
    (h : ∀ c ∈ l, isRustWhitespace c = false) : rustTrim l = l := by
  unfold rustTrim
  rw [dropWhile_eq_self_of_forall l h,
    dropWhile_eq_self_of_forall l.reverse (fun c hc => h c (List.mem_reverse.mp hc)),
    List.reverse_reverse]

/-- Stripping the trailing suffix character from `ds ++ [c]` recovers `ds`
when `ds` contains no occurrence of `c`. -/
theorem trimEndMatches_append (ds : List Char) (c : Char) (h : ∀ x ∈ ds, x ≠ c) :
    trimEndMatches (ds ++ [c]) c = ds := by
  unfold trimEndMatches
  rw [List.reverse_append]
  have h1 : ([c].reverse ++ ds.reverse).dropWhile (· = c) = ds.reverse := by
    simp only [List.reverse_cons, List.reverse_nil, List.nil_append, List.cons_append,
      List.dropWhile_cons]
    rw [if_pos (by simp)]
    exact dropWhile_eq_self_of_forall ds.reverse
      (fun x hx => by simpa using h x (List.mem_reverse.mp hx))
  rw [h1, List.reverse_reverse]

/-- Lowercasing is the identity on digit strings. -/
theorem map_toLower_digits (ds : List Char) (hd : ∀ c ∈ ds, c.isDigit = true) :
    ds.map toLowerAscii = ds := by
  induction ds with
  | nil => rfl
  | cons a t ih =>
    have ha := (digit_facts a (hd a (by simp))).2.1
    simp only [List.map_cons, ha, List.cons.injEq, true_and]
    exact ih (fun c hc => hd c (by simp [hc]))

/-- Wrapping is the identity inside the `i64` range. -/
theorem wrap64_eq (x : Int) (h1 : -(2 ^ 63) ≤ x) (h2 : x < 2 ^ 63) : wrap64 x = x := by
  unfold wrap64
  have h3 : (0 : Int) ≤ x + 2 ^ 63 := by omega
  have h4 : x + 2 ^ 63 < 2 ^ 64 := by omega
  rw [Int.emod_eq_of_lt h3 h4]
  omega

/-- Parsing a pure in-range digit string yields its value. -/
theorem parseI64_digits (ds : List Char) (hne : ds ≠ [])
    (hd : ∀ c ∈ ds, c.isDigit = true) (hlt : (digitsVal ds : Int) < 2 ^ 63) :
    parseI64 ds = some ((digitsVal ds : Int)) := by
  obtain ⟨a, t, rfl⟩ : ∃ a t, ds = a :: t := by
    cases ds with
    | nil => exact absurd rfl hne
    | cons a t => exact ⟨a, t, rfl⟩
  have hfa := digit_facts a (hd a (by simp))
  have hall : (a :: t).all Char.isDigit = true := List.all_eq_true.mpr hd
  unfold parseI64 splitSign
  simp only [if_neg hfa.2.2.2.2.2.1, if_neg hfa.2.2.2.2.2.2, List.isEmpty_cons,
    Bool.false_eq_true, if_false, hall, not_true, Bool.not_true]
  rw [if_pos ⟨by have := Int.natCast_nonneg (digitsVal (a :: t)); omega, hlt⟩]

/-- Memory-limit parsing of `<digits>g` / `<digits>G`. -/
theorem parse_memory_limit_gsuffix (ds : List Char) (suf : Char) (hne : ds ≠ [])
    (hd : ∀ c ∈ ds, c.isDigit = true) (hsuf : suf = 'g' ∨ suf = 'G')
    (hlt : (digitsVal ds : Int) * (1024 * 1024 * 1024) < 2 ^ 63) :
    parse_memory_limit (ds ++ [suf]) = .ok ((digitsVal ds : Int) * (1024 * 1024 * 1024)) := by
  have hnn : (0 : Int) ≤ (digitsVal ds : Int) := Int.natCast_nonneg _
  have hval : (digitsVal ds : Int) < 2 ^ 63 := by
    have : (digitsVal ds : Int) * 1 ≤ (digitsVal ds : Int) * (1024 * 1024 * 1024) :=
      mul_le_mul_of_nonneg_left (by norm_num) hnn
    omega
  have htrim : rustTrim (ds ++ [suf]) = ds ++ [suf] := by
    refine rustTrim_eq_self _ (fun c hc => ?_)
    rcases List.mem_append.mp hc with h | h
    · exact (digit_facts c (hd c h)).1
    · simp only [List.mem_singleton] at h
      subst h
      rcases hsuf with h | h <;> subst h <;> decide
  have hmap : (ds ++ [suf]).map toLowerAscii = ds ++ ['g'] := by
    rw [List.map_append, map_toLower_digits ds hd]
    rcases hsuf with h | h <;> subst h <;> rfl
  have hstrip : trimEndMatches (ds ++ ['g']) 'g' = ds :=
    trimEndMatches_append ds 'g' (fun x hx => (digit_facts x (hd x hx)).2.2.1)
  unfold parse_memory_limit
  rw [htrim, hmap]
  simp only [List.getLast?_concat, reduceIte]
  rw [hstrip, parseI64_digits ds hne hd hval]
  exact congrArg Except.ok (wrap64_eq _ (by nlinarith) hlt)

/-- Memory-limit parsing of `<digits>m` / `<digits>M`. -/
theorem parse_memory_limit_msuffix (ds : List Char) (suf : Char) (hne : ds ≠ [])
    (hd : ∀ c ∈ ds, c.isDigit = true) (hsuf : suf = 'm' ∨ suf = 'M')
    (hlt : (digitsVal ds : Int) * (1024 * 1024) < 2 ^ 63) :
    parse_memory_limit (ds ++ [suf]) = .ok ((digitsVal ds : Int) * (1024 * 1024)) := by
  have hnn : (0 : Int) ≤ (digitsVal ds : Int) := Int.natCast_nonneg _
  have hval : (digitsVal ds : Int) < 2 ^ 63 := by
    have : (digitsVal ds : Int) * 1 ≤ (digitsVal ds : Int) * (1024 * 1024) :=
      mul_le_mul_of_nonneg_left (by norm_num) hnn
    omega
  have htrim : rustTrim (ds ++ [suf]) = ds ++ [suf] := by
    refine rustTrim_eq_self _ (fun c hc => ?_)
    rcases List.mem_append.mp hc with h | h
    · exact (digit_facts c (hd c h)).1
    · simp only [List.mem_singleton] at h
      subst h
      rcases hsuf with h | h <;> subst h <;> decide
  have hmap : (ds ++ [suf]).map toLowerAscii = ds ++ ['m'] := by
    rw [List.map_append, map_toLower_digits ds hd]
    rcases hsuf with h | h <;> subst h <;> rfl
  have hstrip : trimEndMatches (ds ++ ['m']) 'm' = ds :=
    trimEndMatches_append ds 'm' (fun x hx => (digit_facts x (hd x hx)).2.2.2.1)
  unfold parse_memory_limit
  rw [htrim, hmap]
  simp only [List.getLast?_concat]
  rw [if_neg (show ¬(some 'm' = some 'g') by decide)]
  simp only [if_true]
  rw [hstrip, parseI64_digits ds hne hd hval]
  exact congrArg Except.ok (wrap64_eq _ (by nlinarith) hlt)

/-- Memory-limit parsing of `<digits>k` / `<digits>K`. -/
theorem parse_memory_limit_ksuffix (ds : List Char) (suf : Char) (hne : ds ≠ [])
    (hd : ∀ c ∈ ds, c.isDigit = true) (hsuf : suf = 'k' ∨ suf = 'K')
    (hlt : (digitsVal ds : Int) * 1024 < 2 ^ 63) :
    parse_memory_limit (ds ++ [suf]) = .ok ((digitsVal ds : Int) * 1024) := by
  have hnn : (0 : Int) ≤ (digitsVal ds : Int) := Int.natCast_nonneg _
  have hval : (digitsVal ds : Int) < 2 ^ 63 := by
    have : (digitsVal ds : Int) * 1 ≤ (digitsVal ds : Int) * 1024 :=
      mul_le_mul_of_nonneg_left (by norm_num) hnn
    omega
  have htrim : rustTrim (ds ++ [suf]) = ds ++ [suf] := by
    refine rustTrim_eq_self _ (fun c hc => ?_)
    rcases List.mem_append.mp hc with h | h
    · exact (digit_facts c (hd c h)).1
    · simp only [List.mem_singleton] at h
      subst h
      rcases hsuf with h | h <;> subst h <;> decide
  have hmap : (ds ++ [suf]).map toLowerAscii = ds ++ ['k'] := by
    rw [List.map_append, map_toLower_digits ds hd]
    rcases hsuf with h | h <;> subst h <;> rfl
  have hstrip : trimEndMatches (ds ++ ['k']) 'k' = ds :=
    trimEndMatches_append ds 'k' (fun x hx => (digit_facts x (hd x hx)).2.2.2.2.1)
  unfold parse_memory_limit
  rw [htrim, hmap]
  simp only [List.getLast?_concat]
  rw [if_neg (show ¬(some 'k' = some 'g') by decide),
    if_neg (show ¬(some 'k' = some 'm') by decide)]
  simp only [if_true]
  rw [hstrip, parseI64_digits ds hne hd hval]
  exact congrArg Except.ok (wrap64_eq _ (by nlinarith) hlt)

/-- Memory-limit parsing of a bare digit string: raw bytes. -/
theorem parse_memory_limit_bare (ds : List Char) (hne : ds ≠ [])
    (hd : ∀ c ∈ ds, c.isDigit = true) (hlt : (digitsVal ds : Int) < 2 ^ 63) :
    parse_memory_limit ds = .ok ((digitsVal ds : Int)) := by
  have hnn : (0 : Int) ≤ (digitsVal ds : Int) := Int.natCast_nonneg _
  have htrim : rustTrim ds = ds :=
    rustTrim_eq_self _ (fun c hc => (digit_facts c (hd c hc)).1)
  have hmap : ds.map toLowerAscii = ds := map_toLower_digits ds hd
  have hdl : ds.getLast? = some (ds.getLast hne) := List.getLast?_eq_getLast ds hne
  have hfd := digit_facts _ (hd _ (List.getLast_mem hne))
  unfold parse_memory_limit
  rw [htrim, hmap]
  simp only [hdl, Option.some.injEq,
    if_neg (fun h => hfd.2.2.1 h), if_neg (fun h => hfd.2.2.2.1 h),
    if_neg (fun h => hfd.2.2.2.2.1 h)]
  rw [parseI64_digits ds hne hd hlt]
  have : wrap64 ((digitsVal ds : Int) * 1) = (digitsVal ds : Int) := by
    rw [mul_one]
    exact wrap64_eq _ (by omega) hlt
  exact congrArg Except.ok this

/-! ## Claim C8 -/

/-- C8 counterexample: the claim quantifies over every integer, but the
decimal string for `2 ^ 63` is outside the `i64` range, so the parser
rejects it instead of returning it as raw bytes. -/
theorem C8_counterexample_out_of_range :
    parse_memory_limit "9223372036854775808".data =
      .error "Invalid memory limit: 9223372036854775808" ∧
    parse_memory_limit "9223372036854775808".data ≠ .ok (9223372036854775808 : Int) := by
  refine ⟨rfl, fun h => ?_⟩
  rw [show parse_memory_limit "9223372036854775808".data =
    .error "Invalid memory limit: 9223372036854775808" from rfl] at h
  simp at h

/-- C8 (amended): the five quoted examples hold, and in general for every
nonnegative integer given as a nonempty decimal digit string — restricted,
as the i64 parser forces, to values whose product with the multiplier stays
below `2 ^ 63` — a `g`/`m`/`k` suffix in either case multiplies by the
corresponding power of 1024, and a bare digit string parses as raw bytes. -/
theorem C8_parse_memory_limit :
    parse_memory_limit "4g".data = .ok (4 * 1024 ^ 3) ∧
    parse_memory_limit "512m".data = .ok (512 * 1024 ^ 2) ∧
    parse_memory_limit "1024k".data = .ok (1024 ^ 2) ∧
    parse_memory_limit "1000".data = .ok 1000 ∧
    parse_memory_limit "2G".data = .ok (2 * 1024 ^ 3) ∧
    (∀ (ds : List Char) (suf : Char), ds ≠ [] → (∀ c ∈ ds, c.isDigit = true) →
      (suf = 'g' ∨ suf = 'G') → (digitsVal ds : Int) * (1024 * 1024 * 1024) < 2 ^ 63 →
      parse_memory_limit (ds ++ [suf]) = .ok ((digitsVal ds : Int) * (1024 * 1024 * 1024))) ∧
    (∀ (ds : List Char) (suf : Char), ds ≠ [] → (∀ c ∈ ds, c.isDigit = true) →
      (suf = 'm' ∨ suf = 'M') → (digitsVal ds : Int) * (1024 * 1024) < 2 ^ 63 →
      parse_memory_limit (ds ++ [suf]) = .ok ((digitsVal ds : Int) * (1024 * 1024))) ∧
    (∀ (ds : List Char) (suf : Char), ds ≠ [] → (∀ c ∈ ds, c.isDigit = true) →
      (suf = 'k' ∨ suf = 'K') → (digitsVal ds : Int) * 1024 < 2 ^ 63 →
      parse_memory_limit (ds ++ [suf]) = .ok ((digitsVal ds : Int) * 1024)) ∧
    (∀ ds : List Char, ds ≠ [] → (∀ c ∈ ds, c.isDigit = true) →
      (digitsVal ds : Int) < 2 ^ 63 →
      parse_memory_limit ds = .ok ((digitsVal ds : Int))) :=
  ⟨rfl, rfl, rfl, rfl, rfl,
   parse_memory_limit_gsuffix, parse_memory_limit_msuffix,
   parse_memory_limit_ksuffix, parse_memory_limit_bare⟩

/-- Witness for C8: the general clauses applied at `"7g"`, `"3m"`, `"5k"`
and `"42"`. -/
theorem C8_witness :
    parse_memory_limit ("7".data ++ ['g']) = .ok ((digitsVal "7".data : Int) * (1024 * 1024 * 1024)) ∧
    parse_memory_limit ("3".data ++ ['M']) = .ok ((digitsVal "3".data : Int) * (1024 * 1024)) ∧
    parse_memory_limit ("5".data ++ ['k']) = .ok ((digitsVal "5".data : Int) * 1024) ∧
    parse_memory_limit "42".data = .ok ((digitsVal "42".data : Int)) :=
  ⟨C8_parse_memory_limit.2.2.2.2.2.1 "7".data 'g' (by decide) (by decide) (Or.inl rfl) (by decide),
   C8_parse_memory_limit.2.2.2.2.2.2.1 "3".data 'M' (by decide) (by decide) (Or.inr rfl) (by decide),
   C8_parse_memory_limit.2.2.2.2.2.2.2.1 "5".data 'k' (by decide) (by decide) (Or.inl rfl) (by decide),
   C8_parse_memory_limit.2.2.2.2.2.2.2.2 "42".data (by decide) (by decide) (by decide)⟩

/-- Witness for C5 at concrete ASCII inputs: `"My-Project_1"` is accepted by
the project validator and `"my--user"` is rejected by the identity
validator. -/
theorem C5_witness :
    validate_project_name "My-Project_1".data = .ok () ∧
    validate_github_username "my--user".data ≠ .ok () := by
  constructor
  · exact (C5_validator_characterization.1 "My-Project_1".data (by decide)).mpr
      (by refine ⟨by decide, by decide, ?_, by decide, by decide⟩; decide)
  · intro hok
    have h := (C5_validator_characterization.2 "my--user".data (by decide)).mp hok
    exact absurd h.2.2.2.2.2 (by decide)

/-! ## Claims C6 and C7 -/

/-- C6: for every tcpip-forward request not refused by `allow_remote = false`,
the chosen bind address is exactly the function of the requested address and
`allow_gateway_ports` the spec describes; `allow_remote = false` refuses; and
in particular `allow_gateway_ports = false` with a request for `0.0.0.0`
binds `127.0.0.1`. -/
theorem C6_tcpip_forward_bind_policy :
    (∀ (agp : Bool) (addr : String),
      tcpip_forward_bind_addr true agp addr = some (bind_addr_of_spec agp addr)) ∧
    (∀ (agp : Bool) (addr : String), tcpip_forward_bind_addr false agp addr = none) ∧
    tcpip_forward_bind_addr true false "0.0.0.0" = some "127.0.0.1" := by
  refine ⟨?_, fun agp addr => rfl, rfl⟩
  intro agp addr
  unfold tcpip_forward_bind_addr bind_addr_of_spec is_localhost
  simp only [Bool.not_true, Bool.false_eq_true, if_false, Option.some.injEq,
    List.mem_cons, List.mem_singleton, List.not_mem_nil, or_false]
  split_ifs with h1 h2 h3 h4 h5 h6 h7 h8 h9 h10 h11 h12 h13 h14 <;>
    simp_all

/-- C7: with `allow_local = true`, a direct-tcpip destination in the literal
loopback set is rewritten to `127.0.0.1`, any other host is refused when
`allow_nonlocal_destinations = false` and passed through unchanged otherwise;
with `allow_local = false` every direct-tcpip open is refused. -/
theorem C7_direct_tcpip_policy :
    ∀ (al anl : Bool) (host : String),
      direct_tcpip_dest al anl host = direct_tcpip_dest_of_spec al anl host := by
  intro al anl host
  unfold direct_tcpip_dest direct_tcpip_dest_of_spec is_localhost
  cases al <;> cases anl <;>
    simp only [Bool.not_true, Bool.not_false, Bool.false_eq_true, Bool.true_eq_false,
      if_false, if_true, List.mem_cons, List.mem_singleton, List.not_mem_nil, or_false] <;>
    split_ifs <;> simp_all

/-! ## Claim C2 -/

/-- C2: the live exec dispatch treats `agentman list` as `help`.  The parser
compiled into the binary (the `ssh.rs`-local one — `main.rs` never declares
`mod gateway_control`) maps `agentman list` to `Help`, so the exec request
replies with the help text and exit status 0 and prints no workspace lines;
the richer parser in the never-compiled `gateway_control.rs` would have
mapped the same payload to `ExecList`. -/
theorem C2_list_dispatches_to_help :
    Ssh.parse_gateway_control_command (rustTrim "agentman list".data) =
      some Ssh.GatewayControlCommand.help ∧
    exec_request_control
        { containers := [], workspaces := [], hostDirs := [], freshCounter := 0,
          today := "20260101", workspaceRoot := "/ws" } "octocat" "demo"
        "agentman list".data =
      some ({ containers := [], workspaces := [], hostDirs := [], freshCounter := 0,
              today := "20260101", workspaceRoot := "/ws" }, 0,
            Ssh.gateway_control_help_text, []) ∧
    GatewayControl.parse_gateway_control_command "agentman list".data =
      some GatewayControl.GatewayControlCommand.execList :=
  ⟨rfl, rfl, rfl⟩

/-! ## Claim C3 -/

/-- C3: every exec payload that parses as `agentman destroy` with none of
`--yes`, `--keep-workspace`, `--dry-run` (the `--force` flag alone does not
bypass the check) is answered with exit status 2 and the instructional
refusal message, with no engine call, no change to containers, directories
or the persisted state. -/
theorem C3_destroy_refuses_without_confirmation :
    ∀ (w : DockerWorld) (u p : String) (cmd : List Char) (f : Bool),
      Ssh.parse_gateway_control_command (rustTrim cmd) =
        some (Ssh.GatewayControlCommand.destroy false false false f) →
      exec_request_control w u p cmd = some (w, 2, destroy_refusal_text, []) := by
  intro w u p cmd f hparse
  unfold exec_request_control
  rw [hparse]
  simp

/-- Witness for C3: a refused `agentman destroy` (and `agentman destroy
--force`) on a world holding one running container. -/
theorem C3_witness :
    Ssh.parse_gateway_control_command (rustTrim "agentman destroy".data) =
      some (Ssh.GatewayControlCommand.destroy false false false false) ∧
    exec_request_control
        { containers := [{ id := "engine-id-0", name := "demo-octocat-20260101",
                           running := true, paused := false, managed := true,
                           labelUser := some "octocat", labelProject := some "demo" }],
          workspaces := [], hostDirs := ["/ws/octocat/demo"], freshCounter := 1,
          today := "20260101", workspaceRoot := "/ws" } "octocat" "demo"
        "agentman destroy".data =
      some ({ containers := [{ id := "engine-id-0", name := "demo-octocat-20260101",
                               running := true, paused := false, managed := true,
                               labelUser := some "octocat", labelProject := some "demo" }],
              workspaces := [], hostDirs := ["/ws/octocat/demo"], freshCounter := 1,
              today := "20260101", workspaceRoot := "/ws" }, 2, destroy_refusal_text, []) :=
  ⟨rfl,
   C3_destroy_refuses_without_confirmation _ "octocat" "demo" "agentman destroy".data false rfl⟩

/-! ## Claim C4 helper lemmas -/

/-- The frame pump never emits an exit-status message. -/
theorem pumpFrames_no_exit (kind : ChannelStreamKind)
    (frames : List (Except String LogOutput)) (v : Nat) :
    SshMsg.exitStatus v ∉ pumpFrames kind frames := by
  induction frames with
  | nil => simp [pumpFrames]
  | cons fr rest ih =>
    cases fr with
    | error e => simp [pumpFrames]
    | ok f => cases f <;> cases kind <;> simp [pumpFrames, List.mem_cons, ih]

/-- On an error-free frame stream the Session pump emits only `data` and
stderr extended-data messages and preserves the stdout byte stream. -/
theorem pumpFrames_session_ok (frames : List (Except String LogOutput))
    (hok : ∀ fr ∈ frames, fr.isOk = true) :
    (∀ m ∈ pumpFrames .session frames,
      (∃ b, m = SshMsg.data b) ∨ ∃ b, m = SshMsg.extendedData 1 b) ∧
    msgsStdout (pumpFrames .session frames) = framesStdout frames := by
  induction frames with
  | nil => simp [pumpFrames, msgsStdout, framesStdout]
  | cons fr rest ih =>
    have hrest := ih (fun fr hm => hok fr (by simp [hm]))
    cases fr with
    | error e => exact absurd (hok (.error e) (by simp)) (by simp [Except.isOk, Except.toBool])
    | ok f =>
      cases f with
      | stdErr m =>
        refine ⟨?_, ?_⟩
        · intro x hx
          rw [pumpFrames] at hx
          rcases List.mem_cons.mp hx with h | h
          · exact Or.inr ⟨m, h⟩
          · exact hrest.1 x h
        · simp [pumpFrames, msgsStdout, framesStdout, hrest.2]
      | stdOut m =>
        refine ⟨?_, ?_⟩
        · intro x hx
          rw [pumpFrames] at hx
          rcases List.mem_cons.mp hx with h | h
          · exact Or.inl ⟨m, h⟩
          · exact hrest.1 x h
        · simp [pumpFrames, msgsStdout, framesStdout, hrest.2]
      | stdIn m =>
        refine ⟨?_, ?_⟩
        · intro x hx
          rw [pumpFrames] at hx
          rcases List.mem_cons.mp hx with h | h
          · exact Or.inl ⟨m, h⟩
          · exact hrest.1 x h
        · simp [pumpFrames, msgsStdout, framesStdout, hrest.2]
      | console m =>
        refine ⟨?_, ?_⟩
        · intro x hx
          rw [pumpFrames] at hx
          rcases List.mem_cons.mp hx with h | h
          · exact Or.inl ⟨m, h⟩
          · exact hrest.1 x h
        · simp [pumpFrames, msgsStdout, framesStdout, hrest.2]

/-- The poll loop stops at the first non-running inspect and coerces the
exit code: 255 when negative, the wrapping u32 cast otherwise. -/
theorem pollExitLoop_stop (inspect : Nat → Except Unit ExecInspect) (c : Int) :
    ∀ (fuel i j : Nat), i ≤ j → j < i + fuel →
    (∀ k, i ≤ k → k < j → ∃ e, inspect k = .ok { running := some true, exit_code := e }) →
    inspect j = .ok { running := some false, exit_code := some c } →
    pollExitLoop inspect i fuel = if c < 0 then 255 else c.toNat % 2 ^ 32 := by
  intro fuel
  induction fuel with
  | zero => intro i j h1 h2 _ _; omega
  | succ fuel ih =>
    intro i j h1 h2 hrun hstop
    by_cases hij : i = j
    · subst hij
      rw [pollExitLoop, hstop]
      simp [Option.getD]
    · have hlt : i < j := lt_of_le_of_ne h1 hij
      obtain ⟨e, he⟩ := hrun i le_rfl hlt
      rw [pollExitLoop, he]
      simp only [Option.getD, if_true]
      exact ih (i + 1) j hlt (by omega) (fun k hk1 hk2 => hrun k (by omega) hk2) hstop

/-- The poll loop reports 255 when every poll still says running. -/
theorem pollExitLoop_timeout (inspect : Nat → Except Unit ExecInspect) :
    ∀ (fuel i : Nat),
    (∀ k, i ≤ k → k < i + fuel → ∃ e, inspect k = .ok { running := some true, exit_code := e }) →
    pollExitLoop inspect i fuel = 255 := by
  intro fuel
  induction fuel with
  | zero => intro i _; rw [pollExitLoop]
  | succ fuel ih =>
    intro i hrun
    obtain ⟨e, he⟩ := hrun i le_rfl (by omega)
    rw [pollExitLoop, he]
    simp only [Option.getD]
    exact ih (i + 1) (fun k hk1 hk2 => hrun k (by omega) (by omega))

/-! ## Claim C4 -/

/-- C4 counterexample: the claim says the reported status equals the
engine's exit code whenever it is non-negative, but Rust's `code as u32`
(ssh.rs:1083) wraps modulo `2 ^ 32`: an engine exit code of `2 ^ 32` is
non-negative yet reported as 0. -/
theorem C4_counterexample_u32_wrap :
    exec_exit_status (fun _ => .ok { running := some false, exit_code := some (2 ^ 32) }) = 0 ∧
    (0 : Int) ≤ 2 ^ 32 ∧ ((2 ^ 32 : Int)).toNat ≠ 0 :=
  ⟨rfl, by decide, by decide⟩

/-- C4 (amended): for a completed Session-kind exec (an error-free output
stream), the client observes the pumped data messages — carrying exactly the
stdout bytes the process wrote, in order — then exactly one exit-status,
then eof, then close.  The reported status is the engine exit code coerced
at the first poll (of at most 80) observing `running = false`: the code
reduced modulo `2 ^ 32` when non-negative (hence the code itself whenever it
is below `2 ^ 32`), 255 when negative, and 255 when all 80 polls still
report running.  A TcpForward-kind exec never emits an exit-status
message. -/
theorem C4_exec_stream_ordering :
    (∀ (frames : List (Except String LogOutput)) (inspect : Nat → Except Unit ExecInspect),
      (∀ fr ∈ frames, fr.isOk = true) →
      ∃ dataPart,
        start_exec_session_msgs .session frames inspect =
          dataPart ++ [SshMsg.exitStatus (exec_exit_status inspect), SshMsg.eof, SshMsg.close] ∧
        (∀ m ∈ dataPart, (∃ b, m = SshMsg.data b) ∨ ∃ b, m = SshMsg.extendedData 1 b) ∧
        msgsStdout dataPart = framesStdout frames) ∧
    (∀ (inspect : Nat → Except Unit ExecInspect) (j : Nat) (c : Int), j < 80 →
      (∀ i, i < j → ∃ e, inspect i = .ok { running := some true, exit_code := e }) →
      inspect j = .ok { running := some false, exit_code := some c } →
      exec_exit_status inspect = if c < 0 then 255 else c.toNat % 2 ^ 32) ∧
    (∀ (inspect : Nat → Except Unit ExecInspect) (j : Nat) (c : Int), j < 80 →
      (∀ i, i < j → ∃ e, inspect i = .ok { running := some true, exit_code := e }) →
      inspect j = .ok { running := some false, exit_code := some c } →
      0 ≤ c → c < 2 ^ 32 →
      exec_exit_status inspect = c.toNat) ∧
    (∀ inspect : Nat → Except Unit ExecInspect,
      (∀ i, i < 80 → ∃ e, inspect i = .ok { running := some true, exit_code := e }) →
      exec_exit_status inspect = 255) ∧
    (∀ (frames : List (Except String LogOutput)) (inspect : Nat → Except Unit ExecInspect)
      (v : Nat), SshMsg.exitStatus v ∉ start_exec_session_msgs .tcpForward frames inspect) := by
  refine ⟨?_, ?_, ?_, ?_, ?_⟩
  · intro frames inspect hok
    refine ⟨pumpFrames .session frames, ?_, (pumpFrames_session_ok frames hok).1,
      (pumpFrames_session_ok frames hok).2⟩
    unfold start_exec_session_msgs
    simp
  · intro inspect j c hj hrun hstop
    exact pollExitLoop_stop inspect c 80 0 j (Nat.zero_le j) (by omega)
      (fun k _ hk2 => hrun k hk2) hstop
  · intro inspect j c hj hrun hstop hc0 hc32
    unfold exec_exit_status
    rw [pollExitLoop_stop inspect c 80 0 j (Nat.zero_le j) (by omega)
      (fun k _ hk2 => hrun k hk2) hstop]
    rw [if_neg (by omega)]
    exact Nat.mod_eq_of_lt (by omega)
  · intro inspect hrun
    exact pollExitLoop_timeout inspect 80 0 (fun k _ hk2 => hrun k (by omega))
  · intro frames inspect v
    unfold start_exec_session_msgs
    simp [pumpFrames_no_exit]

/-- Witness for C4: a one-frame stdout stream with an immediate clean exit
code 7, and a poll function that always reports running (timeout case). -/
theorem C4_witness :
    (∃ dataPart,
      start_exec_session_msgs .session [.ok (.stdOut "hi")]
          (fun _ => .ok { running := some false, exit_code := some 7 }) =
        dataPart ++
          [SshMsg.exitStatus
              (exec_exit_status (fun _ => .ok { running := some false, exit_code := some 7 })),
            SshMsg.eof, SshMsg.close] ∧
      (∀ m ∈ dataPart, (∃ b, m = SshMsg.data b) ∨ ∃ b, m = SshMsg.extendedData 1 b) ∧
      msgsStdout dataPart = framesStdout [.ok (.stdOut "hi")]) ∧
    exec_exit_status (fun _ => .ok { running := some false, exit_code := some 7 }) =
      (if (7 : Int) < 0 then 255 else (7 : Int).toNat % 2 ^ 32) ∧
    exec_exit_status (fun _ => .ok { running := some false, exit_code := some 7 }) =
      (7 : Int).toNat ∧
    exec_exit_status (fun _ => .ok { running := some true, exit_code := none }) = 255 :=
  ⟨C4_exec_stream_ordering.1 [.ok (.stdOut "hi")] _ (by decide),
   C4_exec_stream_ordering.2.1 _ 0 7 (by omega) (fun i hi => absurd hi (by omega)) rfl,
   C4_exec_stream_ordering.2.2.1 _ 0 7 (by omega) (fun i hi => absurd hi (by omega)) rfl
     (by omega) (by omega),
   C4_exec_stream_ordering.2.2.2.1 _ (fun i _ => ⟨none, rfl⟩)⟩

/-! ## Claim C9 helper lemmas -/

theorem find_map_update (l : List EngineContainer) (t : String)
    (f : EngineContainer → EngineContainer)
    (hid : ∀ c, (f c).id = c.id) (hname : ∀ c, (f c).name = c.name) :
    (l.map (fun c => if c.id = t || c.name = t then f c else c)).find?
        (fun c => c.id = t || c.name = t) =
      (l.find? (fun c => c.id = t || c.name = t)).map f := by
  induction l with
  | nil => rfl
  | cons a rest ih =>
    by_cases h : (a.id = t || a.name = t) = true
    · simp only [List.map_cons, if_pos h, List.find?_cons]
      rw [show ((f a).id = t || (f a).name = t) = (a.id = t || a.name = t) by
        rw [hid, hname]]
      simp [h]
    · simp only [List.map_cons, if_neg h, List.find?_cons]
      rw [show (decide (a.id = t) || decide (a.name = t)) = false by simpa using h]
      simpa using ih

theorem findContainer_update (w : DockerWorld) (t : String)
    (f : EngineContainer → EngineContainer)
    (hid : ∀ c, (f c).id = c.id) (hname : ∀ c, (f c).name = c.name) :
    (w.updateContainer t f).findContainer t = (w.findContainer t).map f :=
  find_map_update w.containers t f hid hname

theorem getWorkspace_ensureDir (w : DockerWorld) (s u p : String) :
    (w.ensureDir s).getWorkspace u p = w.getWorkspace u p := by
  unfold DockerWorld.ensureDir
  split <;> rfl

theorem findContainer_ensureDir (w : DockerWorld) (s t : String) :
    (w.ensureDir s).findContainer t = w.findContainer t := by
  unfold DockerWorld.ensureDir
  split <;> rfl

theorem getWorkspace_of_workspaces_eq (w w' : DockerWorld) (u p : String)
    (h : w'.workspaces = w.workspaces) :
    w'.getWorkspace u p = w.getWorkspace u p := by
  unfold DockerWorld.getWorkspace
  rw [h]

theorem ensure_running_post (w : DockerWorld) (id : String) (c : EngineContainer)
    (hc : w.findContainer id = some c) :
    ∃ w' calls, w.ensure_running id = Except.ok (w', calls) ∧
      w'.workspaces = w.workspaces ∧
      ∃ c', w'.findContainer id = some c' ∧ c'.running = true ∧ c'.paused = false := by
  have hid1 : ∀ c : EngineContainer, ({ c with paused := false } : EngineContainer).id = c.id :=
    fun _ => rfl
  have hname1 : ∀ c : EngineContainer, ({ c with paused := false } : EngineContainer).name = c.name :=
    fun _ => rfl
  have hid2 : ∀ c : EngineContainer, ({ c with running := true } : EngineContainer).id = c.id :=
    fun _ => rfl
  have hname2 : ∀ c : EngineContainer, ({ c with running := true } : EngineContainer).name = c.name :=
    fun _ => rfl
  unfold DockerWorld.ensure_running
  rw [hc]
  by_cases hp : c.paused = true <;> by_cases hr : c.running = true <;>
    simp only [hp, hr, if_true, if_false, not_true, not_false_iff,
      eq_self_iff_true, Bool.false_eq_true, Bool.true_eq_false]
  · refine ⟨_, _, rfl, rfl, ?_⟩
    rw [findContainer_update _ _ _ hid1 hname1, hc]
    exact ⟨_, rfl, hr, rfl⟩
  · refine ⟨_, _, rfl, rfl, ?_⟩
    rw [findContainer_update _ _ _ hid2 hname2,
      findContainer_update _ _ _ hid1 hname1, hc]
    exact ⟨_, rfl, rfl, rfl⟩
  · refine ⟨_, _, rfl, rfl, ?_⟩
    rw [hc]
    exact ⟨c, rfl, hr, by simpa using hp⟩
  · refine ⟨_, _, rfl, rfl, ?_⟩
    rw [findContainer_update _ _ _ hid2 hname2, hc]
    exact ⟨_, rfl, rfl, by simpa using hp⟩

theorem create_container_post (w : DockerWorld) (u p : String) (w' : DockerWorld)
    (id : String) (calls : List EngineCall)
    (h : w.create_container u p = .ok (w', id, calls)) :
    w'.readyFor u p id := by
  simp only [DockerWorld.create_container] at h
  cases huniq : uniqueNameLoop w (p ++ "-" ++ u ++ "-" ++ w.today)
      (p ++ "-" ++ u ++ "-" ++ w.today) 0 101 with
  | error e => rw [huniq] at h; simp at h
  | ok r =>
    rw [huniq] at h
    simp only [Except.ok.injEq, Prod.mk.injEq] at h
    obtain ⟨hw, hid, -⟩ := h
    subst hw
    subst hid
    constructor
    · simp [DockerWorld.getWorkspace]
    · simp [DockerWorld.findContainer, DockerWorld.updateContainer]

theorem goc_ready (w : DockerWorld) (u p : String) (w1 : DockerWorld) (id1 : String)
    (tr1 : List EngineCall)
    (h : w.get_or_create_container u p = .ok (w1, id1, tr1)) :
    w1.readyFor u p id1 := by
  simp only [DockerWorld.get_or_create_container] at h
  cases hws : (w.ensureDir (w.workspacePath u p)).getWorkspace u p with
  | none => simp only [hws] at h; exact create_container_post _ _ _ _ _ _ h
  | some ws =>
    simp only [hws] at h
    cases hci : ws.container_id with
    | none => simp only [hci] at h; exact create_container_post _ _ _ _ _ _ h
    | some id =>
      simp only [hci] at h
      by_cases hex : (w.ensureDir (w.workspacePath u p)).container_exists id = true
      · rw [if_pos hex] at h
        obtain ⟨c, hc⟩ : ∃ c, (w.ensureDir (w.workspacePath u p)).findContainer id = some c := by
          unfold DockerWorld.container_exists at hex
          exact Option.isSome_iff_exists.mp hex
        obtain ⟨w', calls, hrun, hwsp, c', hc', hr', hp'⟩ :=
          ensure_running_post (w.ensureDir (w.workspacePath u p)) id c hc
        rw [hrun] at h
        simp only [Except.ok.injEq, Prod.mk.injEq] at h
        obtain ⟨hw1, hid1, -⟩ := h
        subst hw1
        subst hid1
        refine ⟨⟨ws, ?_, hci⟩, ⟨c', hc', hr', hp'⟩⟩
        rw [getWorkspace_of_workspaces_eq _ _ u p hwsp, hws]
      · rw [if_neg hex] at h
        cases hcr : (w.ensureDir (w.workspacePath u p)).create_container u p with
        | error e => rw [hcr] at h; simp at h
        | ok r =>
          rw [hcr] at h
          obtain ⟨w', cid, calls⟩ := r
          simp only [Except.ok.injEq, Prod.mk.injEq] at h
          obtain ⟨hw1, hid1, -⟩ := h
          subst hw1
          subst hid1
          exact create_container_post _ _ _ _ _ _ hcr

theorem readyFor_goc (w : DockerWorld) (u p id : String) (h : w.readyFor u p id) :
    w.get_or_create_container u p =
      .ok (w.ensureDir (w.workspacePath u p), id,
           [EngineCall.inspect id, EngineCall.inspect id]) := by
  obtain ⟨⟨ws, hws, hci⟩, ⟨c, hc, hrun, hpause⟩⟩ := h
  have hws0 : (w.ensureDir (w.workspacePath u p)).getWorkspace u p = some ws := by
    rw [getWorkspace_ensureDir]; exact hws
  have hc0 : (w.ensureDir (w.workspacePath u p)).findContainer id = some c := by
    rw [findContainer_ensureDir]; exact hc
  have hex : (w.ensureDir (w.workspacePath u p)).container_exists id = true := by
    unfold DockerWorld.container_exists
    rw [hc0]; rfl
  have her : (w.ensureDir (w.workspacePath u p)).ensure_running id =
      .ok (w.ensureDir (w.workspacePath u p), [EngineCall.inspect id]) := by
    unfold DockerWorld.ensure_running
    rw [hc0]
    simp [hrun, hpause]
  simp only [DockerWorld.get_or_create_container]
  simp only [hws0, hci, hex, if_true, her]

/-- C9: two consecutive `get_or_create_container(i, p)` calls with no
intervening external change return the same container id, and the second
call's engine trace contains zero create and zero start calls. -/
theorem C9_get_or_create_idempotent :
    ∀ (w : DockerWorld) (u p : String) (w1 : DockerWorld) (id1 : String)
      (tr1 : List EngineCall),
      w.get_or_create_container u p = .ok (w1, id1, tr1) →
      ∃ w2 tr2, w1.get_or_create_container u p = .ok (w2, id1, tr2) ∧
        (∀ n, EngineCall.create n ∉ tr2) ∧ (∀ t, EngineCall.start t ∉ tr2) := by
  intro w u p w1 id1 tr1 h
  refine ⟨_, _, readyFor_goc w1 u p id1 (goc_ready w u p w1 id1 tr1 h), ?_, ?_⟩ <;>
    intro x <;> simp


/-- Witness for C9: the first call on an empty world creates and starts a
container; applying the theorem to it shows the second call returns the same
id with no create or start engine call. -/
theorem C9_witness :
    ∃ w2 tr2,
      (DockerWorld.get_or_create_container
          { containers := [{ id := "engine-id-0", name := "demo-octocat-20260101",
                             running := true, paused := false, managed := true,
                             labelUser := some "octocat", labelProject := some "demo" }],
            workspaces := [("octocat/demo",
              { github_user := "octocat", project := "demo",
                container_name := "demo-octocat-20260101",
                container_id := some "engine-id-0",
                host_workspace_path := "/ws/octocat/demo" })],
            hostDirs := ["/ws/octocat/demo"], freshCounter := 1,
            today := "20260101", workspaceRoot := "/ws" } "octocat" "demo") =
        .ok (w2, "engine-id-0", tr2) ∧
      (∀ n, EngineCall.create n ∉ tr2) ∧ (∀ t, EngineCall.start t ∉ tr2) :=
  C9_get_or_create_idempotent
    { containers := [], workspaces := [], hostDirs := [], freshCounter := 0,
      today := "20260101", workspaceRoot := "/ws" } "octocat" "demo" _ _ _ rfl

/-! ## Claim C1 helper lemmas -/

theorem get_cache_key (store : KeyStore) (o fp : String) (e : KeyCacheEntry) :
    (store.cache_key o e).get_github_user fp =
      if fp = o then some e else store.get_github_user fp := by
  unfold KeyStore.cache_key KeyStore.get_github_user
  by_cases h : fp = o
  · subst h
    simp [List.find?_cons]
  · rw [List.find?_cons_of_neg _ (by simpa using Ne.symm h), if_neg h]

/-- Batch caching never overwrites an existing binding. -/
theorem cache_all_preserves (gu : List Char) (kt : String) :
    ∀ (offered : List String) (store : KeyStore) (fp : String) (e : KeyCacheEntry),
      store.get_github_user fp = some e →
      (cache_all_offered_keys store offered gu kt).get_github_user fp = some e := by
  intro offered
  induction offered with
  | nil => intro store fp e h; exact h
  | cons o rest ih =>
    intro store fp e h
    unfold cache_all_offered_keys
    simp only [List.foldl_cons]
    by_cases ho : (store.get_github_user o).isSome = true
    · rw [if_pos ho]
      exact ih store fp e h
    · rw [if_neg ho]
      refine ih _ fp e ?_
      rw [get_cache_key]
      split
      · next heq =>
        subst heq
        rw [h] at ho
        simp at ho
      · exact h

/-- Batch caching binds every offered fingerprint that had no binding. -/
theorem cache_all_inserts (gu : List Char) (kt : String) :
    ∀ (offered : List String) (store : KeyStore) (fp : String),
      fp ∈ offered → store.get_github_user fp = none →
      (cache_all_offered_keys store offered gu kt).get_github_user fp =
        some { github_username := gu, key_type := kt } := by
  intro offered
  induction offered with
  | nil => intro store fp hmem; cases hmem
  | cons o rest ih =>
    intro store fp hmem hnone
    unfold cache_all_offered_keys
    simp only [List.foldl_cons]
    by_cases heq : fp = o
    · subst heq
      rw [if_neg (by simp [hnone])]
      have hkey : (store.cache_key fp
          { github_username := gu, key_type := kt }).get_github_user fp =
          some { github_username := gu, key_type := kt } := by
        rw [get_cache_key, if_pos rfl]
      exact cache_all_preserves gu kt rest _ fp _ hkey
    · have hmem' : fp ∈ rest := by
        rcases List.mem_cons.mp hmem with h | h
        · exact absurd h heq
        · exact h
      by_cases ho : (store.get_github_user o).isSome = true
      · rw [if_pos ho]
        exact ih store fp hmem' hnone
      · rw [if_neg ho]
        refine ih _ fp hmem' ?_
        rw [get_cache_key, if_neg heq]
        exact hnone

/-- A bootstrap match caches all offered keys for the matched identity. -/
theorem bootstrapLoop_accept (provider : GitHubProvider) (key : PublicKey)
    (offered : List String) :
    ∀ (bs : List (List Char)) (store : KeyStore) (gu : List Char),
      (bootstrapLoop provider key store offered bs).1 = some gu →
      (bootstrapLoop provider key store offered bs).2.1 =
        cache_all_offered_keys store offered gu key.key_type := by
  intro bs
  induction bs with
  | nil => intro store gu h; simp [bootstrapLoop] at h
  | cons u rest ih =>
    intro store gu h
    unfold bootstrapLoop at h ⊢
    by_cases hp : provider u key = true
    · simp only [hp, if_true] at h ⊢
      obtain rfl : u = gu := by simpa using h
      rfl
    · simp only [hp, Bool.false_eq_true, if_false] at h ⊢
      exact ih store gu h

/-- An accept on one of the verification paths (b)-(d) binds every offered
fingerprint that was unbound to the resolved identity and preserves the
existing bindings. -/
theorem auth_resolve_accept_binds (provider : GitHubProvider)
    (bootstrap : List (List Char)) (h2 : ConnectionHandler) (store : KeyStore)
    (github_hint : Option (List Char)) (key : PublicKey)
    (hacc : (auth_resolve provider bootstrap h2 store github_hint key).auth = .accept)
    (hpath : (auth_resolve provider bootstrap h2 store github_hint key).path ≠
      some .cached) :
    ∃ gu, (auth_resolve provider bootstrap h2 store github_hint key).handler.github_user
        = some gu ∧
      (∀ fp e, store.get_github_user fp = some e →
        (auth_resolve provider bootstrap h2 store github_hint key).store.get_github_user fp
          = some e) ∧
      (∀ fp ∈ (auth_resolve provider bootstrap h2 store github_hint
          key).handler.offered_key_fingerprints,
        store.get_github_user fp = none →
        (auth_resolve provider bootstrap h2 store github_hint key).store.get_github_user fp
          = some { github_username := gu, key_type := key.key_type }) := by
  unfold auth_resolve at hacc hpath ⊢
  cases hfp : store.get_github_user key.fingerprint with
  | some entry => simp [hfp] at hpath
  | none =>
    simp only [hfp] at hacc hpath ⊢
    cases hpend : h2.pending_github_user with
    | some gu =>
      simp only [hpend] at hacc hpath ⊢
      by_cases hprov : provider gu key = true
      · simp only [hprov, if_true] at hacc hpath ⊢
        refine ⟨gu, rfl, ?_, ?_⟩
        · intro fp e he
          exact cache_all_preserves gu key.key_type _ store fp e he
        · intro fp hf hnone
          exact cache_all_inserts gu key.key_type _ store fp hf hnone
      · simp [hprov] at hacc
    | none =>
      simp only [hpend] at hacc hpath ⊢
      cases hhint : github_hint with
      | some gu =>
        simp only [hhint] at hacc hpath ⊢
        by_cases huv : (validate_github_username gu).isOk = true
        · simp only [huv, not_true, if_false, Bool.not_true] at hacc hpath ⊢
          by_cases hprov : provider gu key = true
          · simp only [hprov, if_true] at hacc hpath ⊢
            refine ⟨gu, rfl, ?_, ?_⟩
            · intro fp e he
              exact cache_all_preserves gu key.key_type _ store fp e he
            · intro fp hf hnone
              exact cache_all_inserts gu key.key_type _ store fp hf hnone
          · simp [hprov] at hacc
        · simp [huv] at hacc
      | none =>
        simp only [hhint] at hacc hpath ⊢
        cases hbl : (bootstrapLoop provider key store
            h2.offered_key_fingerprints bootstrap).1 with
        | some gu =>
          simp only [hbl] at hacc hpath ⊢
          have hst := bootstrapLoop_accept provider key
            h2.offered_key_fingerprints bootstrap store gu hbl
          refine ⟨gu, rfl, ?_, ?_⟩
          · intro fp e he
            rw [hst]
            exact cache_all_preserves gu key.key_type _ store fp e he
          · intro fp hf hnone
            rw [hst]
            exact cache_all_inserts gu key.key_type _ store fp hf hnone
        | none => simp [hbl] at hacc

/-- The binding property lifted to the full `auth_publickey_offered`
callback. -/
theorem auth_accept_binds (provider : GitHubProvider) (bootstrap : List (List Char))
    (h : ConnectionHandler) (store : KeyStore) (user : List Char) (key : PublicKey)
    (hacc : (auth_publickey_offered provider bootstrap h store user key).auth = .accept)
    (hpath : (auth_publickey_offered provider bootstrap h store user key).path ≠
      some .cached) :
    ∃ gu, (auth_publickey_offered provider bootstrap h store
        user key).handler.github_user = some gu ∧
      (∀ fp e, store.get_github_user fp = some e →
        (auth_publickey_offered provider bootstrap h store
          user key).store.get_github_user fp = some e) ∧
      (∀ fp ∈ (auth_publickey_offered provider bootstrap h store
          user key).handler.offered_key_fingerprints,
        store.get_github_user fp = none →
        (auth_publickey_offered provider bootstrap h store
          user key).store.get_github_user fp =
          some { github_username := gu, key_type := key.key_type }) := by
  unfold auth_publickey_offered at hacc hpath ⊢
  by_cases hval : (validate_project_name (parse_ssh_username user).1).isOk = true
  · simp only [hval, not_true, Bool.not_true, if_false, ite_false] at hacc hpath ⊢
    exact auth_resolve_accept_binds _ _ _ _ _ _ hacc hpath
  · simp [hval] at hacc

/-- A reconnect offering only bound fingerprints (in any order) accepts on
the first offer with zero identity-provider fetches. -/
theorem runAuth_all_cached (provider : GitHubProvider) (bootstrap : List (List Char))
    (user : List Char)
    (hval : (validate_project_name (parse_ssh_username user).1).isOk = true)
    (keys : List PublicKey) (h : ConnectionHandler) (store : KeyStore)
    (hne : keys ≠ [])
    (hbound : ∀ k ∈ keys, (store.get_github_user k.fingerprint).isSome = true) :
    (runAuth provider bootstrap user h store keys).2.2.1 = true ∧
    (runAuth provider bootstrap user h store keys).2.2.2 = 0 := by
  obtain ⟨k, ks, rfl⟩ : ∃ k ks, keys = k :: ks := by
    cases keys with
    | nil => exact absurd rfl hne
    | cons a t => exact ⟨a, t, rfl⟩
  obtain ⟨e, he⟩ := Option.isSome_iff_exists.mp (hbound k (by simp))
  have hstep1 : (auth_publickey_offered provider bootstrap h store user k).auth =
      .accept := by
    unfold auth_publickey_offered auth_resolve
    simp only [hval, not_true, Bool.not_true, if_false, ite_false, he]
  have hstep2 : (auth_publickey_offered provider bootstrap h store user k).fetches = 0 := by
    unfold auth_publickey_offered auth_resolve
    simp only [hval, not_true, Bool.not_true, if_false, ite_false, he]
  constructor
  · simp only [runAuth, hstep1]
  · simp only [runAuth, hstep1, hstep2]

/-! ## Claim C1 -/

/-- C1 counterexample: a run in which the client offers an uncached key
first and a cached key second.  Authentication succeeds through the cached
binding (identity `octocat`, zero fetches), the fingerprint `SHA256:A` is in
`offered_key_fingerprints`, yet the store afterwards holds no binding for it
— the cached path returns before `cache_all_offered_keys` runs, contradicting
the claim's coverage of all four resolution paths. -/
theorem C1_counterexample_cached_path :
    (runAuth (fun _ _ => false) [] "proj".data ConnectionHandler.new
        [("SHA256:B", { github_username := "octocat".data, key_type := "ssh-ed25519" })]
        [{ fingerprint := "SHA256:A", key_type := "ssh-ed25519" },
         { fingerprint := "SHA256:B", key_type := "ssh-ed25519" }]).2.2.1 = true ∧
    (runAuth (fun _ _ => false) [] "proj".data ConnectionHandler.new
        [("SHA256:B", { github_username := "octocat".data, key_type := "ssh-ed25519" })]
        [{ fingerprint := "SHA256:A", key_type := "ssh-ed25519" },
         { fingerprint := "SHA256:B", key_type := "ssh-ed25519" }]).1.github_user =
      some "octocat".data ∧
    "SHA256:A" ∈ (runAuth (fun _ _ => false) [] "proj".data ConnectionHandler.new
        [("SHA256:B", { github_username := "octocat".data, key_type := "ssh-ed25519" })]
        [{ fingerprint := "SHA256:A", key_type := "ssh-ed25519" },
         { fingerprint := "SHA256:B", key_type := "ssh-ed25519" }]).1.offered_key_fingerprints ∧
    ((runAuth (fun _ _ => false) [] "proj".data ConnectionHandler.new
        [("SHA256:B", { github_username := "octocat".data, key_type := "ssh-ed25519" })]
        [{ fingerprint := "SHA256:A", key_type := "ssh-ed25519" },
         { fingerprint := "SHA256:B", key_type := "ssh-ed25519" }]).2.1).get_github_user
      "SHA256:A" = none :=
  ⟨rfl, by decide, by decide, by decide⟩

/-- C1 (amended): on the three verification paths — pending
keyboard-interactive identity, identity hint in the SSH user field, or
bootstrap identity — a successful resolution binds every offered fingerprint
that was not yet bound to the resolved identity and preserves every existing
binding (the cached-binding path writes nothing).  Consequently a reconnect
offering, in any order, only fingerprints that are bound authenticates from
the cache on its first offer with zero identity-provider fetches. -/
theorem C1_batch_cache_on_verification_paths :
    (∀ (provider : GitHubProvider) (bootstrap : List (List Char))
        (h : ConnectionHandler) (store : KeyStore) (user : List Char) (key : PublicKey),
      (auth_publickey_offered provider bootstrap h store user key).auth = .accept →
      (auth_publickey_offered provider bootstrap h store user key).path ≠ some .cached →
      ∃ gu, (auth_publickey_offered provider bootstrap h store
          user key).handler.github_user = some gu ∧
        (∀ fp e, store.get_github_user fp = some e →
          (auth_publickey_offered provider bootstrap h store
            user key).store.get_github_user fp = some e) ∧
        (∀ fp ∈ (auth_publickey_offered provider bootstrap h store
            user key).handler.offered_key_fingerprints,
          store.get_github_user fp = none →
          (auth_publickey_offered provider bootstrap h store
            user key).store.get_github_user fp =
            some { github_username := gu, key_type := key.key_type })) ∧
    (∀ (provider : GitHubProvider) (bootstrap : List (List Char)) (user : List Char)
        (keys : List PublicKey) (h : ConnectionHandler) (store : KeyStore),
      (validate_project_name (parse_ssh_username user).1).isOk = true →
      keys ≠ [] →
      (∀ k ∈ keys, (store.get_github_user k.fingerprint).isSome = true) →
      (runAuth provider bootstrap user h store keys).2.2.1 = true ∧
      (runAuth provider bootstrap user h store keys).2.2.2 = 0) :=
  ⟨auth_accept_binds,
   fun provider bootstrap user keys h store hval hne hbound =>
     runAuth_all_cached provider bootstrap user hval keys h store hne hbound⟩

/-- Witness for C1: an identity-hint auth (`proj+octocat`) whose provider
asserts the key, and a reconnect offering one cached key. -/
theorem C1_witness :
    (∃ gu, (auth_publickey_offered (fun _ _ => true) [] ConnectionHandler.new []
        "proj+octocat".data
        { fingerprint := "SHA256:A", key_type := "ssh-ed25519" }).handler.github_user =
          some gu ∧
      (∀ fp e, KeyStore.get_github_user [] fp = some e →
        (auth_publickey_offered (fun _ _ => true) [] ConnectionHandler.new []
          "proj+octocat".data
          { fingerprint := "SHA256:A", key_type := "ssh-ed25519" }).store.get_github_user fp
            = some e) ∧
      (∀ fp ∈ (auth_publickey_offered (fun _ _ => true) [] ConnectionHandler.new []
          "proj+octocat".data
          { fingerprint := "SHA256:A",
            key_type := "ssh-ed25519" }).handler.offered_key_fingerprints,
        KeyStore.get_github_user [] fp = none →
        (auth_publickey_offered (fun _ _ => true) [] ConnectionHandler.new []
          "proj+octocat".data
          { fingerprint := "SHA256:A", key_type := "ssh-ed25519" }).store.get_github_user fp
            = some { github_username := gu, key_type := "ssh-ed25519" })) ∧
    ((runAuth (fun _ _ => true) [] "proj".data ConnectionHandler.new
        [("SHA256:B", { github_username := "octocat".data, key_type := "ssh-ed25519" })]
        [{ fingerprint := "SHA256:B", key_type := "ssh-ed25519" }]).2.2.1 = true ∧
      (runAuth (fun _ _ => true) [] "proj".data ConnectionHandler.new
        [("SHA256:B", { github_username := "octocat".data, key_type := "ssh-ed25519" })]
        [{ fingerprint := "SHA256:B", key_type := "ssh-ed25519" }]).2.2.2 = 0) :=
  ⟨C1_batch_cache_on_verification_paths.1 (fun _ _ => true) [] ConnectionHandler.new []
      "proj+octocat".data { fingerprint := "SHA256:A", key_type := "ssh-ed25519" }
      (by decide) (by decide),
   C1_batch_cache_on_verification_paths.2 (fun _ _ => true) [] "proj".data
      [{ fingerprint := "SHA256:B", key_type := "ssh-ed25519" }] ConnectionHandler.new
      [("SHA256:B", { github_username := "octocat".data, key_type := "ssh-ed25519" })]
      (by decide) (by decide) (by decide)⟩

end Agentman
